import Mathlib

/-!
# ClassHandler: quiescence gate and handles

A shallow embedding of `src/osd/ClassHandler.h`: the per-class guard
(`ClassDataGuard`), the handle (`ClassDataPtr`) and the registry functions
that the header defines inline.

Conventions.
* `std::atomic<uint32_t> refcount` is a `Nat` below `2^32`; `++` and `--` wrap.
* A thread that sleeps on a condition variable is woken a number of times; what
  it sees at each wake-up (has the deadline passed, what does the predicate
  evaluate to now) is written by other threads and is given as a trace of
  `Wake`s.  A trace that ends while the thread is still asleep yields `none`.
* The guard value threaded through a call holds the writes of the calling thread.
* Handles are objects in slots of a `Heap`; a pointer to a guard is its address.
* Claims on several threads are stated on the interleavings of their atomic steps.
-/

namespace ClassHandler

/-- Number of values of a `uint32_t`. -/
def UINT32_MOD : Nat := 4294967296

/-- The struct `ClassHandler::ClassDataGuard`.  The three data members of the source, and one
ghost field: `underflowed` records that `refcount--` was executed while `refcount` was `0`
(the unsigned counter then wraps to `2^32 - 1`). -/
structure ClassDataGuard where
  open_class_waits : Bool
  refcount : Nat
  blocked : Bool
  underflowed : Bool
deriving DecidableEq, Repr

/-- One return of the inner `condition_variable::wait` / `wait_until` as the sleeping thread
sees it: `timeout` is `cv_status::timeout`, `pred` is the value of the wait predicate when it is
evaluated next. -/
structure Wake where
  timeout : Bool
  pred : Bool
deriving DecidableEq, Repr

/-- The call `std::condition_variable::wait(lock, pred)`: `while (!pred()) wait(lock);`.
`p0` is the predicate at the first evaluation. -/
def cv_wait (p0 : Bool) : List Wake → Option Unit
  | [] => if p0 then some () else none
  | w :: ws => if p0 then some () else cv_wait w.pred ws

/-- The call `std::condition_variable::wait_for(lock, rel_time, pred)`:
`while (!pred()) if (wait_until(lock, deadline) == cv_status::timeout) return pred(); return true;` -/
def cv_wait_for (p0 : Bool) : List Wake → Option Bool
  | [] => if p0 then some true else none
  | w :: ws =>
    if p0 then some true
    else if w.timeout then some w.pred
    else cv_wait_for w.pred ws

namespace ClassDataGuard

/-- The constructor `ClassDataGuard()`: `refcount(0), blocked(false)`.  `open_class_waits` is not
initialised by the constructor, so its value is arbitrary. -/
def init (open_class_waits : Bool) : ClassDataGuard :=
  ⟨open_class_waits, 0, false, false⟩

/-- The value is a `uint32_t`. -/
def wf (g : ClassDataGuard) : Prop := g.refcount < UINT32_MOD

instance (g : ClassDataGuard) : Decidable g.wf :=
  inferInstanceAs (Decidable (g.refcount < UINT32_MOD))

/-- `void block() { blocked = true; }` -/
def block (g : ClassDataGuard) : ClassDataGuard :=
  { g with blocked := true }

/-- `bool is_blocked() { return blocked; }` -/
def is_blocked (g : ClassDataGuard) : Bool := g.blocked

/-- `void unblock() { blocked = false; open_class_cv.notify_all(); }` -/
def unblock (g : ClassDataGuard) : ClassDataGuard :=
  { g with blocked := false }

/-- `void incref() { refcount++; }` -/
def incref (g : ClassDataGuard) : ClassDataGuard :=
  { g with refcount := (g.refcount + 1) % UINT32_MOD }

/-- `bool is_used() { return refcount > 0; }` -/
def is_used (g : ClassDataGuard) : Bool := decide (g.refcount > 0)

/-- `void decref() { refcount--; if (refcount == 0) close_class_cv.notify_all(); }`.
The decrement of a `uint32_t`: `0` wraps to `2^32 - 1`. -/
def decref (g : ClassDataGuard) : ClassDataGuard :=
  { g with
    refcount := if g.refcount = 0 then UINT32_MOD - 1 else g.refcount - 1
    underflowed := g.underflowed || decide (g.refcount = 0) }

/-- `bool open_class_wait(int timeout_s)` -/
def open_class_wait (g : ClassDataGuard) (timeout_s : Int) (ws : List Wake) : Option Bool :=
  if timeout_s > 0 then
    if g.is_blocked then cv_wait_for (!g.is_blocked) ws
    else some true
  else if timeout_s < 0 then
    if g.is_blocked then (cv_wait (!g.is_blocked) ws).map (fun _ => true)
    else some true
  else some false

/-- `bool open_class_maybe_wait(int timeout_s)`: the result and the guard after the call. -/
def open_class_maybe_wait (g : ClassDataGuard) (timeout_s : Int) (ws : List Wake) :
    Option (Bool × ClassDataGuard) :=
  let g1 := g.incref
  if !g1.is_blocked then some (true, g1)
  else if !g1.open_class_waits then some (false, g1.decref)
  else if timeout_s = 0 then some (false, g1.decref)
  else
    match g1.open_class_wait timeout_s ws with
    | none => none
    | some true => some (true, g1)
    | some false => some (false, g1.decref)

/-- `bool close_class_wait(int timeout_s)` -/
def close_class_wait (g : ClassDataGuard) (timeout_s : Int) (ws : List Wake) : Option Bool :=
  if timeout_s > 0 then
    if g.is_used then cv_wait_for (!g.is_used) ws
    else some true
  else if timeout_s < 0 then
    if g.is_used then (cv_wait (!g.is_used) ws).map (fun _ => true)
    else some true
  else some false

end ClassDataGuard

/-! ## What a trace of wake-ups says, in words -/

/-- Some wake-up of the trace sees the predicate true. -/
def EventuallySatisfied (ws : List Wake) : Prop :=
  ∃ w ∈ ws, w.pred = true

/-- The predicate is seen true at a wake-up before which no wake-up reported the deadline
(or saw the predicate true): the condition was met before the wait expired. -/
def SatisfiedInTime (ws : List Wake) : Prop :=
  ∃ pre w post, ws = pre ++ w :: post ∧ w.pred = true ∧
    ∀ v ∈ pre, v.pred = false ∧ v.timeout = false

/-- A wake-up reports the deadline with the predicate still false, and no earlier wake-up saw the
predicate true or reported the deadline: the wait expired. -/
def Expired (ws : List Wake) : Prop :=
  ∃ pre w post, ws = pre ++ w :: post ∧ w.timeout = true ∧ w.pred = false ∧
    ∀ v ∈ pre, v.pred = false ∧ v.timeout = false

/-- The trace ends with the thread still asleep inside a timed wait. -/
def StillWaiting (ws : List Wake) : Prop :=
  ∀ v ∈ ws, v.pred = false ∧ v.timeout = false

/-! ## Handles -/

/-- Address of a `ClassDataGuard`: the value of a non-null `ClassDataGuard*`. -/
abbrev GuardId := Nat

/-- Address of a `ClassData`: the value of a non-null `ClassData*`. -/
abbrev ClsId := Nat

/-- The class `ClassHandler::ClassDataPtr`: its two raw pointers, `none` being `nullptr`. -/
structure ClassDataPtr where
  cdg : Option GuardId
  cls : Option ClsId
deriving DecidableEq, Repr

/-- What `ClassDataPtr::operator->` throws. -/
inductive Exn where
  | bad_weak_ptr
deriving DecidableEq, Repr

namespace ClassDataPtr

/-- `ClassData* operator->() { if (!cls) throw std::bad_weak_ptr(); return cls; }` -/
def arrow (p : ClassDataPtr) : Except Exn ClsId :=
  match p.cls with
  | none => Except.error Exn.bad_weak_ptr
  | some c => Except.ok c

/-- `operator bool () { return cls != nullptr && cdg != nullptr; }` -/
def to_bool (p : ClassDataPtr) : Bool :=
  p.cls.isSome && p.cdg.isSome

end ClassDataPtr

/-- The memory the handles live in: the guards by address, and the `ClassDataPtr` objects by
slot.  A slot holding `none` is an object that has been destroyed. -/
structure Heap where
  guards : GuardId → ClassDataGuard
  ptrs : List (Option ClassDataPtr)

namespace Heap

/-- Freshly constructed guards and no handle. -/
def fresh (waits : GuardId → Bool) : Heap :=
  ⟨fun k => ClassDataGuard.init (waits k), []⟩

/-- The live object in slot `i`, if there is one. -/
def get (h : Heap) (i : Nat) : Option ClassDataPtr :=
  h.ptrs.getD i none

/-- A new object, in the next slot. -/
def alloc (h : Heap) (p : ClassDataPtr) : Heap :=
  { h with ptrs := h.ptrs ++ [some p] }

/-- Write slot `i`. -/
def set (h : Heap) (i : Nat) (o : Option ClassDataPtr) : Heap :=
  { h with ptrs := h.ptrs.set i o }

/-- Write the guard at address `k`. -/
def set_guard (h : Heap) (k : GuardId) (g : ClassDataGuard) : Heap :=
  { h with guards := Function.update h.guards k g }

/-- `if (cdg) { cdg->incref(); }` -/
def incref_if (h : Heap) (cdg : Option GuardId) : Heap :=
  match cdg with
  | none => h
  | some k => h.set_guard k (h.guards k).incref

/-- `if (cdg) { cdg->decref(); }` -/
def decref_if (h : Heap) (cdg : Option GuardId) : Heap :=
  match cdg with
  | none => h
  | some k => h.set_guard k (h.guards k).decref

/-- `ClassDataPtr() : cdg(nullptr), cls(nullptr) {}` -/
def ctor_default (h : Heap) : Heap :=
  h.alloc ⟨none, none⟩

/-- `ClassDataPtr(ClassDataGuard* _cdg, ClassData* _cls) : cdg(_cdg), cls(_cls) {}` -/
def ctor_adopt (h : Heap) (cdg : Option GuardId) (cls : Option ClsId) : Heap :=
  h.alloc ⟨cdg, cls⟩

/-- `ClassDataPtr(const ClassDataPtr& src)`; nothing happens when `src` is not a live object. -/
def ctor_copy (h : Heap) (src : Nat) : Heap :=
  match h.get src with
  | none => h
  | some s => (h.alloc ⟨s.cdg, s.cls⟩).incref_if s.cdg

/-- `ClassDataPtr(ClassDataPtr&& src)`; nothing happens when `src` is not a live object. -/
def ctor_move (h : Heap) (src : Nat) : Heap :=
  match h.get src with
  | none => h
  | some s => (h.alloc ⟨s.cdg, s.cls⟩).set src (some ⟨none, none⟩)

/-- `ClassDataPtr& operator=(const ClassDataPtr& src)` on the object in slot `self`. -/
def assign_copy (h : Heap) (self src : Nat) : Heap :=
  match h.get self, h.get src with
  | some _, some s => (h.set self (some ⟨s.cdg, s.cls⟩)).incref_if s.cdg
  | _, _ => h

/-- `ClassDataPtr& operator=(ClassDataPtr&& src)` on the object in slot `self`. -/
def assign_move (h : Heap) (self src : Nat) : Heap :=
  match h.get self, h.get src with
  | some _, some s => ((h.set self (some ⟨s.cdg, s.cls⟩)).set src (some ⟨none, none⟩))
  | _, _ => h

/-- `virtual ~ClassDataPtr() { if (cdg) { cdg->decref(); } }`; nothing happens when `self` is not
a live object. -/
def dtor (h : Heap) (self : Nat) : Heap :=
  match h.get self with
  | none => h
  | some p => (h.decref_if p.cdg).set self none

/-- The call `cdg->open_class_maybe_wait(timeout_s)` on the guard at `k`, its success adopted into
a new `ClassDataPtr(cdg, cls)`. -/
def open_adopt (h : Heap) (k : GuardId) (cls : Option ClsId) (timeout_s : Int)
    (ws : List Wake) : Option Heap :=
  match (h.guards k).open_class_maybe_wait timeout_s ws with
  | none => none
  | some (true, g) => some ((h.set_guard k g).ctor_adopt (some k) cls)
  | some (false, g) => some (h.set_guard k g)

/-- Is the object in a slot live and bound to the guard at `k`? -/
def bound (k : GuardId) (o : Option ClassDataPtr) : Bool :=
  match o with
  | none => false
  | some p => p.cdg == some k

/-- Number of live `ClassDataPtr` objects bound to the guard at `k`. -/
def live (h : Heap) (k : GuardId) : Nat :=
  h.ptrs.countP (bound k)

end Heap

/-- One operation of a user of the handles. -/
inductive Op where
  | open_class (k : GuardId) (cls : Option ClsId) (timeout_s : Int) (ws : List Wake)
  | ctor_default
  | ctor_copy (src : Nat)
  | ctor_move (src : Nat)
  | assign_copy (self src : Nat)
  | assign_move (self src : Nat)
  | dtor (self : Nat)
  | block (k : GuardId)
  | unblock (k : GuardId)
deriving Repr

/-- Is the operation one of the two assignment operators? -/
def Op.is_assign : Op → Bool
  | Op.assign_copy _ _ => true
  | Op.assign_move _ _ => true
  | _ => false

/-- One operation on the heap; `none` when the call does not return within its trace. -/
def Heap.step (h : Heap) : Op → Option Heap
  | Op.open_class k cls t ws => h.open_adopt k cls t ws
  | Op.ctor_default => some h.ctor_default
  | Op.ctor_copy src => some (h.ctor_copy src)
  | Op.ctor_move src => some (h.ctor_move src)
  | Op.assign_copy self src => some (h.assign_copy self src)
  | Op.assign_move self src => some (h.assign_move self src)
  | Op.dtor self => some (h.dtor self)
  | Op.block k => some (h.set_guard k (h.guards k).block)
  | Op.unblock k => some (h.set_guard k (h.guards k).unblock)

/-- A sequence of operations, in order. -/
def Heap.run (h : Heap) : List Op → Option Heap
  | [] => some h
  | op :: ops =>
    match h.step op with
    | none => none
    | some h1 => h1.run ops

/-- The effect of one operation on the guard at `k` and on the handles bound to it: nothing
that counts, or one handle more and `incref`, or one handle less and `decref`, or `incref`
followed by `decref` with the handles as they were. -/
def Heap.Eff (k : GuardId) (h h' : Heap) : Prop :=
  (h'.live k = h.live k ∧ (h'.guards k).refcount = (h.guards k).refcount ∧
    (h'.guards k).underflowed = (h.guards k).underflowed) ∨
  (h'.live k = h.live k + 1 ∧ h'.guards k = (h.guards k).incref) ∨
  (h'.live k + 1 = h.live k ∧ h'.guards k = (h.guards k).decref) ∨
  (h'.live k = h.live k ∧ h'.guards k = (h.guards k).incref.decref)

/-- The operation returns within its trace, whatever the state: every call but an `open_class`
does; an `open_class` does when it does not wait (timeout `0`) or its trace sees the guard
unblocked. -/
def Op.returns : Op → Prop
  | Op.open_class _ _ t ws => t = 0 ∨ EventuallySatisfied ws
  | _ => True

/-! ## The registry functions of the header -/

/-- The value of `ENOENT` in `<errno.h>`. -/
def ENOENT : Int := 2

/-- The member `map<string, ClassDataGuard> class_guards` of `ClassHandler`, as the finite
partial function the map is. -/
structure Handler where
  class_guards : String → Option ClassDataGuard

namespace Handler

/-- `ClassDataGuard* _get_class_guard(const string& cname)`: the guard found under `cname`,
`none` for `nullptr`.  The lookup is `class_guards.find`, which inserts nothing. -/
def _get_class_guard (r : Handler) (cname : String) : Option ClassDataGuard :=
  r.class_guards cname

/-- `int unblock_class(const string& cname)`: the result and the handler after the call; the
pointer returned by `_get_class_guard` points into the map, so `cdg->unblock()` writes the
entry under `cname`. -/
def unblock_class (r : Handler) (cname : String) : Int × Handler :=
  match r._get_class_guard cname with
  | none => (-ENOENT, r)
  | some cdg => (0, { r with class_guards := Function.update r.class_guards cname (some cdg.unblock) })

end Handler

/-- `int reload_class(const string& cname) { return close_class(cname, false, true); }`.
The header only declares `int close_class(const string& cname, bool disable, bool block_opens)`,
so the function is a parameter here; `σ` is the state of the handler. -/
def reload_class {σ : Type} (close_class : σ → String → Bool → Bool → Int × σ)
    (s : σ) (cname : String) : Int × σ :=
  close_class s cname false true

/-- `int unload_and_block_class(const string& cname) { return close_class(cname, true, false); }` -/
def unload_and_block_class {σ : Type} (close_class : σ → String → Bool → Bool → Int × σ)
    (s : σ) (cname : String) : Int × σ :=
  close_class s cname true false

/-- The two flags of `close_class`, by name. -/
structure CloseFlags where
  disable : Bool
  block_opens : Bool
deriving DecidableEq, Repr

/-- The call `close_class(cname, flags.disable, flags.block_opens)`. -/
def close_with {σ : Type} (close_class : σ → String → Bool → Bool → Int × σ)
    (s : σ) (cname : String) (flags : CloseFlags) : Int × σ :=
  close_class s cname flags.disable flags.block_opens

/-- The specification of `reload(name)`: close with disable = false, blocking opens. -/
def spec_reload {σ : Type} (close_class : σ → String → Bool → Bool → Int × σ)
    (s : σ) (cname : String) : Int × σ :=
  close_with close_class s cname { disable := false, block_opens := true }

/-- The specification of `unload_and_disable(name)`: close with disable = true, non-blocking
opens. -/
def spec_unload_and_disable {σ : Type} (close_class : σ → String → Bool → Bool → Int × σ)
    (s : σ) (cname : String) : Int × σ :=
  close_with close_class s cname { disable := true, block_opens := false }

/-! ## Openers and a closer, interleaved

`refcount` and `blocked` are `std::atomic` and every access in the header is a sequentially
consistent load, store or read-modify-write, so the runs of several threads are the interleavings
of their atomic steps.  A schedule lists which thread takes its next step. -/

/-- Where an opener thread stands in `open_class_maybe_wait` and after it.
`start`: before `incref()`.  `incremented`: after `incref()`, before `if (!is_blocked())`.
`slow`: it saw the guard blocked, and is about to test `open_class_waits` and `timeout_s`.
`waiting`: inside `open_class_wait`.  `giving_up`: about to `decref()` and return `false`.
`acquired`: it returned `true` and holds the acquisition.  `rejected`: it returned `false`.
`released`: the acquisition was given back by `decref()`. -/
inductive OpenerPc where
  | start
  | incremented
  | slow
  | waiting
  | giving_up
  | acquired
  | rejected
  | released
deriving DecidableEq, Repr

/-- An opener thread: the argument of its call and where it stands. -/
structure Opener where
  timeout_s : Int
  pc : OpenerPc
deriving DecidableEq, Repr

/-- Has the thread done its `incref()` and not the `decref()` that undoes it? -/
def Opener.pinned (o : Opener) : Bool :=
  match o.pc with
  | OpenerPc.incremented => true
  | OpenerPc.slow => true
  | OpenerPc.waiting => true
  | OpenerPc.giving_up => true
  | OpenerPc.acquired => true
  | _ => false

/-- The next atomic step of an opener on the shared guard.  `deadline` says whether the
condition-variable wait reports `cv_status::timeout` at this wake-up. -/
def Opener.step (g : ClassDataGuard) (o : Opener) (deadline : Bool) : ClassDataGuard × Opener :=
  match o.pc with
  | OpenerPc.start => (g.incref, { o with pc := OpenerPc.incremented })
  | OpenerPc.incremented =>
    if !g.is_blocked then (g, { o with pc := OpenerPc.acquired })
    else (g, { o with pc := OpenerPc.slow })
  | OpenerPc.slow =>
    if !g.open_class_waits then (g, { o with pc := OpenerPc.giving_up })
    else if o.timeout_s = 0 then (g, { o with pc := OpenerPc.giving_up })
    else (g, { o with pc := OpenerPc.waiting })
  | OpenerPc.waiting =>
    if !g.is_blocked then (g, { o with pc := OpenerPc.acquired })
    else if deadline && decide (o.timeout_s > 0) then (g, { o with pc := OpenerPc.giving_up })
    else (g, o)
  | OpenerPc.giving_up => (g.decref, { o with pc := OpenerPc.rejected })
  | OpenerPc.acquired => (g.decref, { o with pc := OpenerPc.released })
  | OpenerPc.rejected => (g, o)
  | OpenerPc.released => (g, o)

/-- Where the closer thread stands: before `block()`, after `block()` and still seeing users, or
after the check that found `refcount` `0`. -/
inductive CloserPc where
  | start
  | blocked_set
  | saw_zero
deriving DecidableEq, Repr

/-- The next atomic step of the closer: `block()`, then the check `!is_used()`, repeated
until it succeeds. -/
def CloserPc.step (g : ClassDataGuard) : CloserPc → ClassDataGuard × CloserPc
  | CloserPc.start => (g.block, CloserPc.blocked_set)
  | CloserPc.blocked_set =>
    if !g.is_used then (g, CloserPc.saw_zero) else (g, CloserPc.blocked_set)
  | CloserPc.saw_zero => (g, CloserPc.saw_zero)

/-- The shared guard and the threads working on it. -/
structure Sys where
  g : ClassDataGuard
  openers : List Opener
  closer : CloserPc

/-- Which thread takes the next step. -/
inductive Event where
  | opener (i : Nat) (deadline : Bool)
  | closer
deriving DecidableEq, Repr

/-- One step of the system. -/
def Sys.step (s : Sys) : Event → Sys
  | Event.closer =>
    { s with g := (s.closer.step s.g).1, closer := (s.closer.step s.g).2 }
  | Event.opener i deadline =>
    match s.openers[i]? with
    | none => s
    | some o =>
      { s with g := (o.step s.g deadline).1, openers := s.openers.set i (o.step s.g deadline).2 }

/-- A schedule, step by step. -/
def Sys.run (s : Sys) : List Event → Sys
  | [] => s
  | e :: es => (s.step e).run es

/-- The counter agrees with the threads, the closer has blocked the guard once it has started,
and no opener holds an acquisition once the closer has seen `refcount` `0`. -/
def Sys.Inv (s : Sys) : Prop :=
  s.g.refcount = s.openers.countP Opener.pinned ∧
  s.openers.length < UINT32_MOD ∧
  (s.closer ≠ CloserPc.start → s.g.blocked = true) ∧
  (s.closer = CloserPc.saw_zero → ∀ o ∈ s.openers, o.pc ≠ OpenerPc.acquired)

/-! ## An untimed open and `unblock()`, interleaved

`open_class_cv.wait(lock, pred)` is `while (!pred()) wait(lock);`.  The waiting thread holds
`open_class_mutex` while it evaluates `pred`; `wait(lock)` releases the mutex and puts the thread
to sleep in one atomic step.  `notify_all()` wakes the threads that are asleep in `wait` at that
moment and has no effect on any other thread.  `unblock()` locks nothing, so each of its two
statements can run between any two steps of the waiting thread.  No spurious wake-up is assumed:
the standard allows them and promises none. -/

/-- Where a thread stands in `open_class_maybe_wait(timeout_s)` called with `timeout_s < 0`.
`start`: before `incref()`.  `incremented`: before `if (!is_blocked())`.  `slow`: it saw the
guard blocked, before `if (!open_class_waits)`; `timeout_s == 0` is false.  `entering`: in
`open_class_wait`, branch `timeout_s < 0`, before `if (this->is_blocked())`.  `testing`: holding
`open_class_mutex`, about to evaluate the predicate of `wait`.  `about_to_sleep`: the predicate
was false, `wait(lock)` is the next statement.  `asleep`: inside `wait(lock)`.  `giving_up`:
before the `decref()` of a refusal.  `returned_true`, `returned_false`: the call has returned. -/
inductive WaiterPc where
  | start
  | incremented
  | slow
  | entering
  | testing
  | about_to_sleep
  | asleep
  | giving_up
  | returned_true
  | returned_false
deriving DecidableEq, Repr

/-- The next atomic step of the waiting thread on the shared guard.  A thread that is asleep
does not move by itself. -/
def WaiterPc.step (g : ClassDataGuard) : WaiterPc → ClassDataGuard × WaiterPc
  | WaiterPc.start => (g.incref, WaiterPc.incremented)
  | WaiterPc.incremented =>
    if !g.is_blocked then (g, WaiterPc.returned_true) else (g, WaiterPc.slow)
  | WaiterPc.slow =>
    if !g.open_class_waits then (g, WaiterPc.giving_up) else (g, WaiterPc.entering)
  | WaiterPc.entering =>
    if g.is_blocked then (g, WaiterPc.testing) else (g, WaiterPc.returned_true)
  | WaiterPc.testing =>
    if !g.is_blocked then (g, WaiterPc.returned_true) else (g, WaiterPc.about_to_sleep)
  | WaiterPc.about_to_sleep => (g, WaiterPc.asleep)
  | WaiterPc.asleep => (g, WaiterPc.asleep)
  | WaiterPc.giving_up => (g.decref, WaiterPc.returned_false)
  | WaiterPc.returned_true => (g, WaiterPc.returned_true)
  | WaiterPc.returned_false => (g, WaiterPc.returned_false)

/-- The effect of `open_class_cv.notify_all()` on the waiting thread: it is woken if it is
asleep in `wait(lock)`, and then evaluates the predicate again; otherwise nothing happens. -/
def WaiterPc.notified : WaiterPc → WaiterPc
  | WaiterPc.asleep => WaiterPc.testing
  | pc => pc

/-- Where the thread in `unblock()` stands: before `blocked = false`, before
`open_class_cv.notify_all()`, or after it. -/
inductive UnblockerPc where
  | start
  | notifying
  | finished
deriving DecidableEq, Repr

/-- The shared guard, the thread in `open_class_maybe_wait` and the thread in `unblock()`. -/
structure WaitSys where
  g : ClassDataGuard
  waiter : WaiterPc
  unblocker : UnblockerPc
deriving DecidableEq, Repr

/-- Which of the two threads takes the next step. -/
inductive WaitEvent where
  | waiter
  | unblocker
deriving DecidableEq, Repr

/-- One step of the two threads. -/
def WaitSys.step (s : WaitSys) : WaitEvent → WaitSys
  | WaitEvent.waiter =>
    { s with g := (s.waiter.step s.g).1, waiter := (s.waiter.step s.g).2 }
  | WaitEvent.unblocker =>
    match s.unblocker with
    | UnblockerPc.start => { s with g := s.g.unblock, unblocker := UnblockerPc.notifying }
    | UnblockerPc.notifying =>
      { s with waiter := s.waiter.notified, unblocker := UnblockerPc.finished }
    | UnblockerPc.finished => s

/-- A schedule of the two threads, step by step. -/
def WaitSys.run (s : WaitSys) : List WaitEvent → WaitSys
  | [] => s
  | e :: es => (s.step e).run es

/-! ## Module statuses -/

/-- The enum `ClassHandler::ClassData::Status`, with the values the compiler gives it. -/
inductive Status where
  | CLASS_UNKNOWN
  | CLASS_MISSING
  | CLASS_MISSING_DEPS
  | CLASS_INITIALIZING
  | CLASS_OPEN
deriving DecidableEq, Repr

/-- The integer value of a status: enumerators without initialiser count from `0`. -/
def Status.value : Status → Nat
  | Status.CLASS_UNKNOWN => 0
  | Status.CLASS_MISSING => 1
  | Status.CLASS_MISSING_DEPS => 2
  | Status.CLASS_INITIALIZING => 3
  | Status.CLASS_OPEN => 4

/-- `static std::string status_to_string(Status status)`, on the integer value of its argument:
the `switch` with its five cases and the `default`. -/
def status_to_string (status : Nat) : String :=
  match status with
  | 0 => "CLASS_UNKNOWN"
  | 1 => "CLASS_MISSING"
  | 2 => "CLASS_MISSING_DEPS"
  | 3 => "CLASS_INITIALIZING"
  | 4 => "CLASS_OPEN"
  | _ => "unknown"

end ClassHandler

/-!
# cls_vector: record formats, requests and responses

A shallow embedding of `src/cls/vector/cls_vector.cc`.

Conventions.
* A `bufferlist` is the list of its bytes; `uint32_t` values are stored in host byte order,
  which is little-endian.
* A function that can throw returns `Except Fault`; dereferencing a null pointer is the fault
  `null_deref`.
* `double` arithmetic is not modelled: the distance of two records is a parameter with values in
  a linear order.
-/

namespace ClsVector

/-- One byte. -/
abbrev Byte := Fin 256

/-- The byte with value `n mod 256`. -/
def byte (n : Nat) : Byte := ⟨n % 256, Nat.mod_lt n (by decide)⟩

/-- How a call can fail: `std::length_error`, `ceph::buffer::end_of_buffer`, or undefined
behaviour by dereferencing a null pointer. -/
inductive Fault where
  | length_error
  | end_of_buffer
  | null_deref
deriving DecidableEq, Repr

deriving instance DecidableEq for Except

/-- Number of values of a `uint32_t`. -/
def UINT32_MOD : Nat := 4294967296

/-- The four bytes of a `uint32_t` in memory, least significant first. -/
def le32 (n : Nat) : List Byte :=
  [byte n, byte (n / 256), byte (n / 65536), byte (n / 16777216)]

/-- The `uint32_t` whose memory holds these four bytes; `0` for a list of another length. -/
def u32_of (bs : List Byte) : Nat :=
  match bs with
  | [a, b, c, d] => a.val + 256 * b.val + 65536 * c.val + 16777216 * d.val
  | _ => 0

/-- `bufferlist::copy(off, len, dest)`: the `len` bytes from `off`; it throws `end_of_buffer`
when they are not all there. -/
def copy (bl : List Byte) (off len : Nat) : Except Fault (List Byte) :=
  if off + len ≤ bl.length then Except.ok ((bl.drop off).take len)
  else Except.error Fault.end_of_buffer

/-- The values of `enum VECTOR_ELEMENT_FORMAT : uint8_t`. -/
def i8 : Nat := 1

/-- Enumerator `i16 = 2`. -/
def i16 : Nat := 2

/-- Enumerator `i32 = 3`. -/
def i32 : Nat := 3

/-- Enumerator `i64 = 4`. -/
def i64 : Nat := 4

/-- Enumerator `u8 = 5`. -/
def u8 : Nat := 5

/-- Enumerator `u16 = 6`. -/
def u16 : Nat := 6

/-- Enumerator `u32 = 7`. -/
def u32 : Nat := 7

/-- Enumerator `u64 = 8`. -/
def u64 : Nat := 8

/-- Enumerator `f32 = 9`. -/
def f32 : Nat := 9

/-- Enumerator `f64 = 10`. -/
def f64 : Nat := 10

/-- The struct `record_format`.  `vformat` is the value of the `uint8_t` enum, so any byte. -/
structure record_format where
  size : Nat
  vector_offset : Nat
  vformat : Nat
  vector_length : Nat
deriving DecidableEq, Repr

namespace record_format

/-- The fields fit their C++ types: three `uint32_t` and one `uint8_t`. -/
def wf (r : record_format) : Prop :=
  r.size < UINT32_MOD ∧ r.vector_offset < UINT32_MOD ∧ r.vformat < 256 ∧
    r.vector_length < UINT32_MOD

instance (r : record_format) : Decidable r.wf :=
  inferInstanceAs (Decidable (_ ∧ _))

/-- `size_t get_element_size() const`: the `switch` as written, every signed case returning
`sizeof(int8_t)`, and `return 1` after it. -/
def get_element_size (r : record_format) : Nat :=
  match r.vformat with
  | 1 => 1
  | 2 => 1
  | 3 => 1
  | 4 => 1
  | 5 => 1
  | 6 => 2
  | 7 => 4
  | 8 => 8
  | 9 => 4
  | 10 => 8
  | _ => 1

/-- `size_t get_vector_size() const { return vector_length*get_element_size(); }`; the product
of a `uint32_t` and a `size_t` of at most 8 does not wrap. -/
def get_vector_size (r : record_format) : Nat :=
  r.vector_length * r.get_element_size

/-- `sizeof(T)` of the element type `T` that `base_record::read_from` instantiates `record<T>`
with for this format: `int8_t`, `int16_t`, `int32_t`, `int64_t`, `uint8_t`, `uint16_t`,
`uint32_t`, `uint64_t`, `float`, `double`; `none` when the `switch` has no case. -/
def sizeof_T (r : record_format) : Option Nat :=
  match r.vformat with
  | 1 => some 1
  | 2 => some 2
  | 3 => some 4
  | 4 => some 8
  | 5 => some 1
  | 6 => some 2
  | 7 => some 4
  | 8 => some 8
  | 9 => some 4
  | 10 => some 8
  | _ => none

/-- `void copy_to(bufferlist& bl) const`: the five appends. -/
def copy_to (r : record_format) (bl : List Byte) : List Byte :=
  let bl := bl ++ le32 r.size
  let bl := bl ++ le32 r.vector_offset
  let bl := bl ++ [byte r.vformat]
  let bl := bl ++ List.replicate 3 (byte 0)
  bl ++ le32 r.vector_length

/-- `static record_format from_bl(const bufferlist& bl, size_t offset)`; `buff[2] & 0x00ff` is
the remainder modulo 256. -/
def from_bl (bl : List Byte) (offset : Nat) : Except Fault record_format :=
  if bl.length < offset + 16 then Except.error Fault.length_error
  else
    match copy bl offset 16 with
    | Except.error e => Except.error e
    | Except.ok buff =>
      Except.ok ⟨u32_of (buff.take 4), u32_of ((buff.drop 4).take 4),
        u32_of ((buff.drop 8).take 4) % 256, u32_of ((buff.drop 12).take 4)⟩

/-- The layout in the comment above `from_bl`: `uint32` record size, `uint32` vector offset,
`uint8` element type, three reserved bytes, `uint32` vector length. -/
def layout_reserved (r : record_format) (x y z : Byte) : List Byte :=
  le32 r.size ++ le32 r.vector_offset ++ [byte r.vformat] ++ [x, y, z] ++
    le32 r.vector_length

/-- The layout with the reserved bytes zero, as `copy_to` writes them. -/
def layout (r : record_format) : List Byte :=
  r.layout_reserved (byte 0) (byte 0) (byte 0)

end record_format

/-! ## Parsing a format string -/

/-- `isspace` in the "C" locale. -/
def is_space (c : Char) : Bool :=
  c = ' ' || c = '\t' || c = '\n' || c = '\x0b' || c = '\x0c' || c = '\r'

/-- The value of a character as a digit of `strtol`: `0`-`9`, then letters from `10`. -/
def digit_val (c : Char) : Option Nat :=
  if '0' ≤ c ∧ c ≤ '9' then some (c.toNat - '0'.toNat)
  else if 'a' ≤ c ∧ c ≤ 'z' then some (c.toNat - 'a'.toNat + 10)
  else if 'A' ≤ c ∧ c ≤ 'Z' then some (c.toNat - 'A'.toNat + 10)
  else none

/-- The longest run of digits of the base at the head of the string: how many there are, their
value, and what follows. -/
def digits (base : Nat) : List Char → Nat → Nat → Nat × Nat × List Char
  | [], count, acc => (count, acc, [])
  | c :: cs, count, acc =>
    match digit_val c with
    | some v => if v < base then digits base cs (count + 1) (acc * base + v) else (count, acc, c :: cs)
    | none => (count, acc, c :: cs)

/-- `LONG_MAX` of a 64-bit `long`. -/
def LONG_MAX : Int := 9223372036854775807

/-- `std::strtol(nptr, &endptr, 0)` of the C standard on a NUL-terminated string, given as the
characters before the NUL: white space, an optional sign, `0x` or `0X` before a hexadecimal digit
for base 16, a leading `0` for base 8, base 10 otherwise, then the longest run of digits.  The
result is the value, clamped to the range of `long`, and the rest of the string; with no digit
the value is `0` and the rest is the whole string. -/
def strtol (s : List Char) : Int × List Char :=
  let s1 := s.dropWhile is_space
  let neg := s1.head? = some '-'
  let s2 := if s1.head? = some '-' ∨ s1.head? = some '+' then s1.tail else s1
  let hex : Bool :=
    match s2 with
    | '0' :: x :: h :: _ =>
      (x = 'x' || x = 'X') && (match digit_val h with | some v => decide (v < 16) | none => false)
    | _ => false
  let base : Nat := if hex then 16 else if s2.head? = some '0' then 8 else 10
  let s3 := if hex then s2.drop 2 else s2
  match digits base s3 0 0 with
  | (0, _, _) => (0, s)
  | (_, v, rest) =>
    if neg then (if (v : Int) > LONG_MAX + 1 then - (LONG_MAX + 1) else - (v : Int), rest)
    else (if (v : Int) > LONG_MAX then LONG_MAX else (v : Int), rest)

/-- The conversion of a `long` to `uint32_t`. -/
def to_u32 (v : Int) : Nat := (v % 4294967296).toNat

/-- `static VECTOR_ELEMENT_FORMAT ve_format_from_str(char* ptr, char** pptr)`: the format and the
rest of the string, or `std::length_error`. -/
def ve_format_from_str (ptr : List Char) : Except Fault (Nat × List Char) :=
  match ptr with
  | 'f' :: '3' :: '2' :: rest => Except.ok (f32, rest)
  | 'f' :: '6' :: '4' :: rest => Except.ok (f64, rest)
  | 'u' :: '8' :: rest => Except.ok (u8, rest)
  | 'u' :: '1' :: '6' :: rest => Except.ok (u16, rest)
  | 'u' :: '3' :: '2' :: rest => Except.ok (u32, rest)
  | 'u' :: '6' :: '4' :: rest => Except.ok (u64, rest)
  | 'i' :: '8' :: rest => Except.ok (i8, rest)
  | 'i' :: '1' :: '6' :: rest => Except.ok (i16, rest)
  | 'i' :: '3' :: '2' :: rest => Except.ok (i32, rest)
  | 'i' :: '6' :: '4' :: rest => Except.ok (i64, rest)
  | _ => Except.error Fault.length_error

/-- `static record_format from_string(const std::string& s)`, on the characters of `s.c_str()`:
`size+offset:formatxlength`, accepted when `size` and `offset` are both `0` or the vector, of
`get_vector_size()` bytes, fits in the record. -/
def record_format.from_string (s : List Char) : Except Fault record_format :=
  let (size, p1) := strtol s
  match p1 with
  | '+' :: p2 =>
    let (offset, p3) := strtol p2
    match p3 with
    | ':' :: p4 =>
      match ve_format_from_str p4 with
      | Except.error e => Except.error e
      | Except.ok (fmt, p5) =>
        match p5 with
        | 'x' :: p6 =>
          let (len, _) := strtol p6
          let r : record_format := ⟨to_u32 size, to_u32 offset, fmt, to_u32 len⟩
          if (r.size = 0 ∧ r.vector_offset = 0) ∨
              r.get_vector_size + r.vector_offset ≤ r.size then Except.ok r
          else Except.error Fault.length_error
        | _ => Except.error Fault.length_error
    | _ => Except.error Fault.length_error
  | _ => Except.error Fault.length_error

/-! ## The chunk sizes of `find_closest` -/

/-- `#define READ_BYTES (1024*1024)` -/
def READ_BYTES : Nat := 1024 * 1024

/-- Unsigned division in C++: dividing by `0` is undefined, `none` here. -/
def udiv (a b : Nat) : Option Nat :=
  if b = 0 then none else some (a / b)

/-- The chunk computation of `find_closest` once `obj_size` is known to be non-zero:
`uint32_t read_length = READ_BYTES / rfmt.size; read_length *= rfmt.size;`
`uint64_t read_count = (obj_size / read_length) + 1;`.  The result is `read_length` and
`read_count`, or `none` when a division by `0` is executed. -/
def chunks (rfmt : record_format) (obj_size : Nat) : Option (Nat × Nat) :=
  match udiv READ_BYTES rfmt.size with
  | none => none
  | some q =>
    let read_length := (q % UINT32_MOD * rfmt.size) % UINT32_MOD
    match udiv obj_size read_length with
    | none => none
    | some c => some (read_length, (c + 1) % 18446744073709551616)

/-! ## Records -/

/-- The class `base_record` with its subclasses `record<T>`: the format, which selects `T`, and
the data bytes. -/
structure base_record where
  format : record_format
  data : List Byte
deriving DecidableEq, Repr

namespace base_record

/-- `size_t size() const { return format.size; }` -/
def size (r : base_record) : Nat := r.format.size

/-- `static std::shared_ptr<base_record> read_from(bl, offset, format)`: `none` is `nullptr`.
When the `switch` on `format.vformat` has no case, `r` stays null and `r->data` dereferences
it. -/
def read_from (bl : List Byte) (offset : Nat) (format : record_format) :
    Except Fault (Option base_record) :=
  if bl.length < offset + format.size then Except.ok none
  else
    match format.sizeof_T with
    | none => Except.error Fault.null_deref
    | some _ =>
      match copy bl offset format.size with
      | Except.error e => Except.error e
      | Except.ok d => Except.ok (some ⟨format, d⟩)

/-- `void check(const base_record& r) const` -/
def check (a r : base_record) : Except Fault Unit :=
  if a.format.vector_length ≠ r.format.vector_length then Except.error Fault.length_error
  else if a.format.vformat ≠ r.format.vformat then Except.error Fault.length_error
  else Except.ok ()

/-- `double distance(const base_record& r) const { check(r); return _distance(r); }`, the
floating-point `_distance` being the parameter `dist`. -/
def distance {D : Type} (dist : base_record → base_record → D) (a r : base_record) :
    Except Fault D :=
  match a.check r with
  | Except.error e => Except.error e
  | Except.ok _ => Except.ok (dist a r)

/-- The bytes of `data` that `record<T>::_distance` reads in a record, for `elem = sizeof(T)`:
from `begin<T>()`, which is `data.data() + format.vector_offset`, to `end<T>()`, which is
`format.vector_length` elements further.  First byte and one past the last. -/
def read_range (r : base_record) (elem : Nat) : Nat × Nat :=
  (r.format.vector_offset, r.format.vector_offset + r.format.vector_length * elem)

/-- The bytes read lie inside the data of the record. -/
def reads_inside (r : base_record) (elem : Nat) : Prop :=
  (r.read_range elem).2 ≤ r.data.length

instance (r : base_record) (elem : Nat) : Decidable (r.reads_inside elem) :=
  inferInstanceAs (Decidable (_ ≤ _))

/-- `void copy_to(bufferlist& bl) const`: `bl.append((char*)data.data(), data.size())`. -/
def copy_to (r : base_record) (bl : List Byte) : List Byte :=
  bl ++ r.data

/-- `void copy_format_to(bufferlist& bl) const { format.copy_to(bl); }` -/
def copy_format_to (r : base_record) (bl : List Byte) : List Byte :=
  r.format.copy_to bl

end base_record

/-! ## Requests -/

/-- The struct `request`; `record` is its member `rec`, a non-null `shared_ptr`. -/
structure request where
  records_to_find : Nat
  record : base_record
deriving DecidableEq, Repr

namespace request

/-- `static request from_bl(const bufferlist& bl, size_t offset)` -/
def from_bl (bl : List Byte) (offset : Nat) : Except Fault request :=
  if bl.length ≤ offset + 4 + 16 then Except.error Fault.length_error
  else
    match copy bl offset 4 with
    | Except.error e => Except.error e
    | Except.ok b =>
      match record_format.from_bl bl (offset + 4) with
      | Except.error e => Except.error e
      | Except.ok fmt =>
        match base_record.read_from bl (offset + 4 + 16) fmt with
        | Except.error e => Except.error e
        | Except.ok none => Except.error Fault.length_error
        | Except.ok (some r) => Except.ok ⟨u32_of b, r⟩

/-- `size_t size() const { return 4 + 16 + rec->size(); }` -/
def size (r : request) : Nat := 4 + 16 + r.record.size

/-- The layout of one request in the comment of `multi_request`: `uint32` number of records to
find, 16 bytes of record format (with any reserved bytes), `record_format.size` bytes of record
data. -/
def layout_reserved (r : request) (rsv : Byte × Byte × Byte) : List Byte :=
  le32 r.records_to_find ++ r.record.format.layout_reserved rsv.1 rsv.2.1 rsv.2.2 ++
    r.record.data

/-- The layout of one request with the reserved bytes zero. -/
def layout (r : request) : List Byte :=
  r.layout_reserved (byte 0, byte 0, byte 0)

/-- The values fit their types, the `switch` of `read_from` has a case for the element type, and
the record holds `format.size` bytes. -/
def wf (r : request) : Prop :=
  r.records_to_find < UINT32_MOD ∧ r.record.format.wf ∧ r.record.format.sizeof_T ≠ none ∧
    r.record.data.length = r.record.format.size

instance (r : request) : Decidable r.wf :=
  inferInstanceAs (Decidable (_ ∧ _))

end request

/-- The struct `multi_request`. -/
structure multi_request where
  requests : List request
deriving DecidableEq, Repr

namespace multi_request

/-- The loop of `multi_request::from_bl`: `n` requests read one after the other from `offset`. -/
def read_requests (bl : List Byte) : Nat → Nat → Except Fault (List request)
  | 0, _ => Except.ok []
  | n + 1, offset =>
    match request.from_bl bl offset with
    | Except.error e => Except.error e
    | Except.ok rq =>
      match read_requests bl n (offset + rq.size) with
      | Except.error e => Except.error e
      | Except.ok rqs => Except.ok (rq :: rqs)

/-- `static multi_request from_bl(const bufferlist& bl, size_t offset)` -/
def from_bl (bl : List Byte) (offset : Nat) : Except Fault multi_request :=
  if bl.length ≤ offset + 4 + 4 + 16 then Except.error Fault.length_error
  else
    match copy bl offset 4 with
    | Except.error e => Except.error e
    | Except.ok b =>
      match read_requests bl (u32_of b) (offset + 4) with
      | Except.error e => Except.error e
      | Except.ok rqs => Except.ok ⟨rqs⟩

/-- The requests of the request format, one after the other, each with its reserved bytes. -/
def layout_requests (items : List (request × Byte × Byte × Byte)) : List Byte :=
  (items.map (fun it => it.1.layout_reserved it.2)).flatten

/-- The request format in the comment of `multi_request`: `uint32` number of parallel requests,
then each request. -/
def layout_reserved (items : List (request × Byte × Byte × Byte)) : List Byte :=
  le32 items.length ++ layout_requests items

/-- The request format with all reserved bytes zero. -/
def layout (rqs : List request) : List Byte :=
  layout_reserved (rqs.map (fun r => (r, byte 0, byte 0, byte 0)))

end multi_request

/-! ## Responses -/

/-- The eight bytes of a `double` in memory. -/
abbrev Bytes8 := { l : List Byte // l.length = 8 }

/-- The struct `response`, with distances in `D`. -/
structure response (D : Type) where
  rqst : base_record
  results : List (D × base_record)
  max_to_find : Nat
  max_distance : D

namespace response

variable {D : Type}

/-- `response(const request& rq)`: `rqst(rq.rec), max_to_find(rq.records_to_find),`
`max_distance(0)`. -/
def init [Zero D] (rq : request) : response D :=
  ⟨rq.record, [], rq.records_to_find, 0⟩

/-- The call `results.remove_if(...)` of `test_append`, element by element: an entry at
`max_distance` is removed; another entry is kept and raises `new_max_distance` when it is
farther.  The result is the list left and the final `new_max_distance`. -/
def remove_if_max [LinearOrder D] (max_distance : D) :
    List (D × base_record) → D → List (D × base_record) × D
  | [], new_max_distance => ([], new_max_distance)
  | p :: ps, new_max_distance =>
    if p.1 = max_distance then remove_if_max max_distance ps new_max_distance
    else
      let r := remove_if_max max_distance ps
        (if p.1 > new_max_distance then p.1 else new_max_distance)
      (p :: r.1, r.2)

/-- `void test_append(std::shared_ptr<base_record> r)` -/
def test_append [LinearOrder D] [Zero D] (dist : base_record → base_record → D)
    (s : response D) (r : base_record) : response D :=
  match s.rqst.distance dist r with
  | Except.error _ => s
  | Except.ok d =>
    if s.results.length < s.max_to_find then
      { s with
        results := s.results ++ [(d, r)]
        max_distance := if s.max_distance < d then d else s.max_distance }
    else if s.max_distance = d then
      { s with results := s.results ++ [(d, r)] }
    else if s.max_distance > d then
      let kept := remove_if_max s.max_distance (s.results ++ [(d, r)]) 0
      { s with results := kept.1, max_distance := kept.2 }
    else s

/-- The record scan of `find_closest` for one response: every record read is offered in turn. -/
def test_append_all [LinearOrder D] [Zero D] (dist : base_record → base_record → D)
    (s : response D) (rs : List base_record) : response D :=
  rs.foldl (test_append dist) s

/-- `void copy_to(bufferlist& bl) const`; `double_bytes` gives the memory of a `double`. -/
def copy_to (double_bytes : D → Bytes8) (s : response D) (bl : List Byte) : List Byte :=
  let bl := s.rqst.copy_format_to bl
  let bl := s.rqst.copy_to bl
  let bl := bl ++ le32 (s.results.length % UINT32_MOD)
  s.results.foldl (fun bl res => res.2.copy_to (bl ++ (double_bytes res.1).val)) bl

/-- One response in the response format: 16 bytes of request record format, the request record
data, `uint32` number of result records, and for each result its distance and its data. -/
def layout (double_bytes : D → Bytes8) (s : response D) : List Byte :=
  s.rqst.format.layout ++ s.rqst.data ++ le32 (s.results.length % UINT32_MOD) ++
    (s.results.map (fun res => (double_bytes res.1).val ++ res.2.data)).flatten

end response

/-- The struct `multi_response`. -/
structure multi_response (D : Type) where
  responses : List (response D)
  results_format : record_format

namespace multi_response

variable {D : Type}

/-- `multi_response(const multi_request& mrq, const record_format& fmt)` -/
def init [Zero D] (mrq : multi_request) (fmt : record_format) : multi_response D :=
  ⟨mrq.requests.map response.init, fmt⟩

/-- `void copy_to(bufferlist& bl) const` -/
def copy_to (double_bytes : D → Bytes8) (m : multi_response D) (bl : List Byte) : List Byte :=
  let bl := m.results_format.copy_to bl
  let bl := bl ++ le32 (m.responses.length % UINT32_MOD)
  m.responses.foldl (fun bl res => res.copy_to double_bytes bl) bl

/-- The response format in the comment of `multi_response`: 16 bytes of results record format,
`uint32` number of responses, then each response. -/
def layout (double_bytes : D → Bytes8) (m : multi_response D) : List Byte :=
  m.results_format.layout ++ le32 (m.responses.length % UINT32_MOD) ++
    (m.responses.map (response.layout double_bytes)).flatten

end multi_response

/-- The distance of two records of one `uint8_t` element each, as `_distance` computes it: the
square root of the squared difference, which is the absolute difference. -/
def dist_u8_1 (a r : base_record) : Nat :=
  let x := (a.data.getD a.format.vector_offset 0).val
  let y := (r.data.getD r.format.vector_offset 0).val
  if x ≤ y then y - x else x - y

end ClsVector

namespace ClassHandler

/-! ## Lemmas on the condition-variable waits -/

theorem cv_wait_true (ws : List Wake) : cv_wait true ws = some () := by
  cases ws <;> simp [cv_wait]

theorem cv_wait_for_true (ws : List Wake) : cv_wait_for true ws = some true := by
  cases ws <;> simp [cv_wait_for]

theorem cv_wait_some_iff (ws : List Wake) :
    cv_wait false ws = some () ↔ EventuallySatisfied ws := by
  induction ws with
  | nil => simp [cv_wait, EventuallySatisfied]
  | cons w ws ih =>
    cases hp : w.pred
    · simp [cv_wait, hp, ih, EventuallySatisfied]
    · simp [cv_wait, hp, cv_wait_true, EventuallySatisfied]

theorem cv_wait_none_iff (ws : List Wake) :
    cv_wait false ws = none ↔ ¬ EventuallySatisfied ws := by
  rw [← cv_wait_some_iff]
  cases h : cv_wait false ws <;> simp

theorem cv_wait_for_some_true_iff (ws : List Wake) :
    cv_wait_for false ws = some true ↔ SatisfiedInTime ws := by
  induction ws with
  | nil => simp [cv_wait_for, SatisfiedInTime]
  | cons w ws ih =>
    constructor
    · intro h
      cases hp : w.pred
      · cases ht : w.timeout
        · simp [cv_wait_for, hp, ht] at h
          obtain ⟨pre, v, post, e, hv, hpre⟩ := ih.mp h
          refine ⟨w :: pre, v, post, by simp [e], hv, ?_⟩
          intro u hu
          rcases List.mem_cons.mp hu with rfl | hu
          · exact ⟨hp, ht⟩
          · exact hpre u hu
        · simp [cv_wait_for, hp, ht] at h
      · exact ⟨[], w, ws, rfl, hp, by simp⟩
    · rintro ⟨pre, v, post, e, hv, hpre⟩
      cases pre with
      | nil =>
        simp at e
        obtain ⟨rfl, rfl⟩ := e
        cases ht : w.timeout <;> simp [cv_wait_for, hv, ht, cv_wait_for_true]
      | cons u pre =>
        simp at e
        obtain ⟨rfl, rfl⟩ := e
        have hu := hpre w (List.mem_cons_self _ _)
        simp only [cv_wait_for, hu.1, hu.2]
        simp only [Bool.false_eq_true, if_false]
        exact ih.mpr ⟨pre, v, post, rfl, hv, fun x hx => hpre x (List.mem_cons_of_mem _ hx)⟩

theorem cv_wait_for_some_false_iff (ws : List Wake) :
    cv_wait_for false ws = some false ↔ Expired ws := by
  induction ws with
  | nil => simp [cv_wait_for, Expired]
  | cons w ws ih =>
    constructor
    · intro h
      cases hp : w.pred
      · cases ht : w.timeout
        · simp [cv_wait_for, hp, ht] at h
          obtain ⟨pre, v, post, e, hvt, hvp, hpre⟩ := ih.mp h
          refine ⟨w :: pre, v, post, by simp [e], hvt, hvp, ?_⟩
          intro u hu
          rcases List.mem_cons.mp hu with rfl | hu
          · exact ⟨hp, ht⟩
          · exact hpre u hu
        · exact ⟨[], w, ws, rfl, ht, hp, by simp⟩
      · cases ht : w.timeout <;> simp [cv_wait_for, hp, ht, cv_wait_for_true] at h
    · rintro ⟨pre, v, post, e, hvt, hvp, hpre⟩
      cases pre with
      | nil =>
        simp at e
        obtain ⟨rfl, rfl⟩ := e
        simp [cv_wait_for, hvt, hvp]
      | cons u pre =>
        simp at e
        obtain ⟨rfl, rfl⟩ := e
        have hu := hpre w (List.mem_cons_self _ _)
        simp only [cv_wait_for, hu.1, hu.2]
        simp only [Bool.false_eq_true, if_false]
        exact ih.mpr ⟨pre, v, post, rfl, hvt, hvp,
          fun x hx => hpre x (List.mem_cons_of_mem _ hx)⟩

theorem cv_wait_for_none_iff (ws : List Wake) :
    cv_wait_for false ws = none ↔ StillWaiting ws := by
  induction ws with
  | nil => simp [cv_wait_for, StillWaiting]
  | cons w ws ih =>
    cases hp : w.pred <;> cases ht : w.timeout <;>
      simp [cv_wait_for, hp, ht, cv_wait_for_true, ih, StillWaiting]

/-! ## Lemmas on the guard -/

namespace ClassDataGuard

theorem incref_decref_refcount (g : ClassDataGuard) (h : g.wf) :
    g.incref.decref.refcount = g.refcount := by
  unfold wf at h
  simp only [incref, decref]
  unfold UINT32_MOD at *
  split <;> omega

theorem open_class_wait_blocked_pos (g : ClassDataGuard) (t : Int) (ws : List Wake)
    (hb : g.blocked = true) (ht : 0 < t) :
    g.open_class_wait t ws = cv_wait_for false ws := by
  simp [open_class_wait, is_blocked, hb, ht]

theorem open_class_wait_blocked_neg (g : ClassDataGuard) (t : Int) (ws : List Wake)
    (hb : g.blocked = true) (ht : t < 0) :
    g.open_class_wait t ws = (cv_wait false ws).map (fun _ => true) := by
  have h1 : ¬ (0 < t) := by omega
  simp [open_class_wait, is_blocked, hb, ht, h1]

theorem open_class_maybe_wait_waiting (g : ClassDataGuard) (t : Int) (ws : List Wake)
    (hb : g.blocked = true) (hw : g.open_class_waits = true) (ht : t ≠ 0) :
    g.open_class_maybe_wait t ws =
      match g.incref.open_class_wait t ws with
      | none => none
      | some true => some (true, g.incref)
      | some false => some (false, g.incref.decref) := by
  simp [open_class_maybe_wait, is_blocked, incref, hb, hw, ht]

theorem open_class_maybe_wait_result (g : ClassDataGuard) (t : Int) (ws : List Wake)
    (r : Bool) (g' : ClassDataGuard) (h : g.open_class_maybe_wait t ws = some (r, g')) :
    (r = true ∧ g' = g.incref) ∨ (r = false ∧ g' = g.incref.decref) := by
  unfold open_class_maybe_wait at h
  simp only at h
  split at h
  · simp only [Option.some.injEq, Prod.mk.injEq] at h
    exact Or.inl ⟨h.1.symm, h.2.symm⟩
  · split at h
    · simp only [Option.some.injEq, Prod.mk.injEq] at h
      exact Or.inr ⟨h.1.symm, h.2.symm⟩
    · split at h
      · simp only [Option.some.injEq, Prod.mk.injEq] at h
        exact Or.inr ⟨h.1.symm, h.2.symm⟩
      · split at h
        · exact absurd h (by simp)
        · simp only [Option.some.injEq, Prod.mk.injEq] at h
          exact Or.inl ⟨h.1.symm, h.2.symm⟩
        · simp only [Option.some.injEq, Prod.mk.injEq] at h
          exact Or.inr ⟨h.1.symm, h.2.symm⟩

theorem open_class_maybe_wait_none (g : ClassDataGuard) (t : Int) (ws : List Wake)
    (h : g.open_class_maybe_wait t ws = none) :
    g.blocked = true ∧ g.open_class_waits = true ∧
      ((t < 0 ∧ ¬ EventuallySatisfied ws) ∨ (0 < t ∧ StillWaiting ws)) := by
  cases hb : g.blocked
  · simp [open_class_maybe_wait, is_blocked, incref, hb] at h
  · cases hw : g.open_class_waits
    · simp [open_class_maybe_wait, is_blocked, incref, hb, hw] at h
    · by_cases ht : t = 0
      · simp [open_class_maybe_wait, is_blocked, incref, hb, hw, ht] at h
      · rw [open_class_maybe_wait_waiting g t ws hb hw ht] at h
        refine ⟨rfl, rfl, ?_⟩
        have hb1 : g.incref.blocked = true := hb
        rcases lt_trichotomy t 0 with hneg | hz | hpos
        · left
          refine ⟨hneg, ?_⟩
          rw [open_class_wait_blocked_neg _ _ _ hb1 hneg] at h
          rw [← cv_wait_none_iff]
          cases hc : cv_wait false ws with
          | none => rfl
          | some u => simp [hc] at h
        · exact absurd hz ht
        · right
          refine ⟨hpos, ?_⟩
          rw [open_class_wait_blocked_pos _ _ _ hb1 hpos] at h
          rw [← cv_wait_for_none_iff]
          cases hc : cv_wait_for false ws with
          | none => rfl
          | some b => cases b <;> simp [hc] at h

end ClassDataGuard

/-! ## Lemmas on the heap of handles -/

theorem countP_set_add {α : Type} (p : α → Bool) (l : List α) (i : Nat) (a d x : α)
    (hi : i < l.length) (hx : l.getD i d = x) :
    (l.set i a).countP p + (if p x then 1 else 0) = l.countP p + (if p a then 1 else 0) := by
  induction l generalizing i with
  | nil => simp at hi
  | cons y l ih =>
    cases i with
    | zero =>
      simp at hx
      subst hx
      simp [List.countP_cons]
      omega
    | succ i =>
      simp at hi
      have hx1 : l.getD i d = x := by simpa using hx
      have := ih i hi hx1
      simp only [List.set, List.countP_cons]
      omega

namespace Heap

theorem get_lt (h : Heap) (i : Nat) (q : ClassDataPtr) (hq : h.get i = some q) :
    i < h.ptrs.length := by
  by_contra hn
  have : h.ptrs.getD i none = none := by
    simp only [List.getD_eq_getElem?_getD]
    rw [List.getElem?_eq_none (by omega)]
    rfl
  rw [get, this] at hq
  exact absurd hq (by simp)

theorem live_alloc (h : Heap) (p : ClassDataPtr) (k : GuardId) :
    (h.alloc p).live k = h.live k + (if p.cdg = some k then 1 else 0) := by
  simp [live, alloc, List.countP_append, List.countP_singleton, bound]

theorem live_set (h : Heap) (i : Nat) (q : ClassDataPtr) (o : Option ClassDataPtr) (k : GuardId)
    (hq : h.get i = some q) :
    (h.set i o).live k + (if q.cdg = some k then 1 else 0) =
      h.live k + (if bound k o = true then 1 else 0) := by
  have := countP_set_add (bound k) h.ptrs i o none (some q) (h.get_lt i q hq) hq
  simpa [live, set, bound] using this

theorem live_set_guard (h : Heap) (j : GuardId) (g : ClassDataGuard) (k : GuardId) :
    (h.set_guard j g).live k = h.live k := rfl

theorem guards_set_guard_same (h : Heap) (k : GuardId) (g : ClassDataGuard) :
    (h.set_guard k g).guards k = g := by
  simp [set_guard]

theorem guards_set_guard_other (h : Heap) (j k : GuardId) (g : ClassDataGuard) (hne : k ≠ j) :
    (h.set_guard j g).guards k = h.guards k := by
  simp [set_guard, Function.update_noteq hne]

theorem guards_alloc (h : Heap) (p : ClassDataPtr) : (h.alloc p).guards = h.guards := rfl

theorem guards_set (h : Heap) (i : Nat) (o : Option ClassDataPtr) :
    (h.set i o).guards = h.guards := rfl

theorem get_alloc_old (h : Heap) (p : ClassDataPtr) (i : Nat) (hi : i < h.ptrs.length) :
    (h.alloc p).get i = h.get i := by
  simp only [get, alloc]
  exact List.getD_append _ _ _ _ hi

theorem get_alloc_new (h : Heap) (p : ClassDataPtr) :
    (h.alloc p).get h.ptrs.length = some p := by
  simp only [get, alloc]
  rw [List.getD_append_right _ _ _ _ (le_refl _)]
  simp

theorem get_set_same (h : Heap) (i : Nat) (o : Option ClassDataPtr) (hi : i < h.ptrs.length) :
    (h.set i o).get i = o := by
  simp [get, set, List.getElem?_set, hi]

theorem get_set_other (h : Heap) (i j : Nat) (o : Option ClassDataPtr) (hne : i ≠ j) :
    (h.set i o).get j = h.get j := by
  simp [get, set, List.getElem?_set, hne]

end Heap

/-! ## What one operation does to a guard and its handles -/

namespace Heap

theorem eff_same (h h' : Heap) (k : GuardId) (hl : h'.live k = h.live k)
    (hg : h'.guards k = h.guards k) : Eff k h h' :=
  Or.inl ⟨hl, by rw [hg], by rw [hg]⟩

theorem eff_ctor_default (h : Heap) (k : GuardId) : Eff k h h.ctor_default := by
  apply eff_same
  · simp [ctor_default, live_alloc]
  · rfl

theorem eff_ctor_copy (h : Heap) (src : Nat) (k : GuardId) : Eff k h (h.ctor_copy src) := by
  unfold ctor_copy
  cases hs : h.get src with
  | none => exact eff_same _ _ _ rfl rfl
  | some s =>
    simp only
    cases hc : s.cdg with
    | none =>
      apply eff_same
      · simp [incref_if, live_alloc]
      · rfl
    | some k0 =>
      simp only [incref_if, guards_alloc]
      by_cases hk : k = k0
      · subst hk
        right; left
        exact ⟨by simp [live_set_guard, live_alloc], guards_set_guard_same _ _ _⟩
      · apply eff_same
        · have : ¬ k0 = k := fun e => hk e.symm
          simp [live_set_guard, live_alloc, this]
        · rw [guards_set_guard_other _ _ _ _ hk]
          rfl

theorem eff_ctor_move (h : Heap) (src : Nat) (k : GuardId) : Eff k h (h.ctor_move src) := by
  unfold ctor_move
  cases hs : h.get src with
  | none => exact eff_same _ _ _ rfl rfl
  | some s =>
    simp only
    apply eff_same
    · have hlt := h.get_lt src s hs
      have hg : (h.alloc ⟨s.cdg, s.cls⟩).get src = some s := by
        rw [get_alloc_old _ _ _ hlt, hs]
      have h1 := live_set (h.alloc ⟨s.cdg, s.cls⟩) src s (some ⟨none, none⟩) k hg
      have h2 := live_alloc h ⟨s.cdg, s.cls⟩ k
      simp [bound] at h1
      simp at h2
      omega
    · rfl

theorem eff_dtor (h : Heap) (self : Nat) (k : GuardId) : Eff k h (h.dtor self) := by
  unfold dtor
  cases hs : h.get self with
  | none => exact eff_same _ _ _ rfl rfl
  | some p =>
    simp only
    cases hc : p.cdg with
    | none =>
      apply eff_same
      · have h1 := live_set h self p none k hs
        simp [bound, hc] at h1
        simpa [decref_if] using h1
      · rfl
    | some k0 =>
      simp only [decref_if]
      have hs1 : (h.set_guard k0 (h.guards k0).decref).get self = some p := hs
      have h1 := live_set (h.set_guard k0 (h.guards k0).decref) self p none k hs1
      simp only [bound, live_set_guard, hc] at h1
      by_cases hk : k = k0
      · subst hk
        right; right; left
        refine ⟨?_, ?_⟩
        · simpa using h1
        · rw [guards_set]
          exact guards_set_guard_same _ _ _
      · apply eff_same
        · have : ¬ k0 = k := fun e => hk e.symm
          simpa [this] using h1
        · rw [guards_set, guards_set_guard_other _ _ _ _ hk]

theorem eff_open_adopt (h h' : Heap) (k0 : GuardId) (cls : Option ClsId) (t : Int)
    (ws : List Wake) (e : h.open_adopt k0 cls t ws = some h') (k : GuardId) : Eff k h h' := by
  unfold open_adopt at e
  cases hr : (h.guards k0).open_class_maybe_wait t ws with
  | none => simp [hr] at e
  | some res =>
    obtain ⟨r, g⟩ := res
    rcases ClassDataGuard.open_class_maybe_wait_result _ _ _ _ _ hr with
      ⟨rfl, rfl⟩ | ⟨rfl, rfl⟩
    · simp only [hr, Option.some.injEq] at e
      subst e
      by_cases hk : k = k0
      · subst hk
        right; left
        refine ⟨?_, ?_⟩
        · simp [ctor_adopt, live_alloc, live_set_guard]
        · simp only [ctor_adopt, guards_alloc]
          exact guards_set_guard_same _ _ _
      · apply eff_same
        · have : ¬ k0 = k := fun e => hk e.symm
          simp [ctor_adopt, live_alloc, live_set_guard, this]
        · simp only [ctor_adopt, guards_alloc]
          exact guards_set_guard_other _ _ _ _ hk
    · simp only [hr, Option.some.injEq] at e
      subst e
      by_cases hk : k = k0
      · subst hk
        right; right; right
        exact ⟨rfl, guards_set_guard_same _ _ _⟩
      · exact eff_same _ _ _ rfl (guards_set_guard_other _ _ _ _ hk)

theorem eff_set_flag (h : Heap) (k0 : GuardId) (g : ClassDataGuard) (k : GuardId)
    (hr : g.refcount = (h.guards k0).refcount)
    (hu : g.underflowed = (h.guards k0).underflowed) : Eff k h (h.set_guard k0 g) := by
  by_cases hk : k = k0
  · subst hk
    left
    refine ⟨rfl, ?_, ?_⟩
    · rw [guards_set_guard_same]; exact hr
    · rw [guards_set_guard_same]; exact hu
  · exact eff_same _ _ _ rfl (guards_set_guard_other _ _ _ _ hk)

theorem eff_step (h h' : Heap) (op : Op) (hop : op.is_assign = false)
    (e : h.step op = some h') (k : GuardId) : Eff k h h' := by
  cases op with
  | open_class k0 cls t ws => exact eff_open_adopt h h' k0 cls t ws e k
  | ctor_default =>
    simp only [step, Option.some.injEq] at e
    subst e
    exact eff_ctor_default h k
  | ctor_copy src =>
    simp only [step, Option.some.injEq] at e
    subst e
    exact eff_ctor_copy h src k
  | ctor_move src =>
    simp only [step, Option.some.injEq] at e
    subst e
    exact eff_ctor_move h src k
  | assign_copy a b => simp [Op.is_assign] at hop
  | assign_move a b => simp [Op.is_assign] at hop
  | dtor self =>
    simp only [step, Option.some.injEq] at e
    subst e
    exact eff_dtor h self k
  | block k0 =>
    simp only [step, Option.some.injEq] at e
    subst e
    exact eff_set_flag h k0 _ k rfl rfl
  | unblock k0 =>
    simp only [step, Option.some.injEq] at e
    subst e
    exact eff_set_flag h k0 _ k rfl rfl

end Heap

/-! ## The counting invariant -/

namespace Heap

theorem eff_inv (k : GuardId) (h h' : Heap) (e : Eff k h h')
    (hi : (h.guards k).refcount = h.live k % UINT32_MOD) :
    (h'.guards k).refcount = h'.live k % UINT32_MOD := by
  rcases e with ⟨hl, hr, _⟩ | ⟨hl, hg⟩ | ⟨hl, hg⟩ | ⟨hl, hg⟩
  · rw [hl, hr, hi]
  · rw [hl, hg]
    simp only [ClassDataGuard.incref]
    unfold UINT32_MOD at *
    omega
  · rw [hg]
    simp only [ClassDataGuard.decref]
    unfold UINT32_MOD at *
    split <;> omega
  · rw [hl, hg]
    simp only [ClassDataGuard.decref, ClassDataGuard.incref]
    unfold UINT32_MOD at *
    split <;> omega

theorem eff_no_underflow (k : GuardId) (h h' : Heap) (e : Eff k h h')
    (hi : (h.guards k).refcount = h.live k % UINT32_MOD)
    (hb : h.live k + 1 < UINT32_MOD)
    (hu : (h.guards k).underflowed = false) :
    (h'.guards k).underflowed = false := by
  rcases e with ⟨_, _, hu'⟩ | ⟨_, hg⟩ | ⟨hl, hg⟩ | ⟨_, hg⟩
  · rw [hu', hu]
  · rw [hg]
    exact hu
  · rw [hg]
    simp only [ClassDataGuard.decref, hu, Bool.false_or, decide_eq_false_iff_not]
    unfold UINT32_MOD at *
    omega
  · rw [hg]
    simp only [ClassDataGuard.decref, ClassDataGuard.incref, hu, Bool.false_or,
      decide_eq_false_iff_not]
    unfold UINT32_MOD at *
    omega

theorem run_inv (ops : List Op) (h h' : Heap) (hops : ∀ op ∈ ops, op.is_assign = false)
    (e : h.run ops = some h') (k : GuardId)
    (hi : (h.guards k).refcount = h.live k % UINT32_MOD) :
    (h'.guards k).refcount = h'.live k % UINT32_MOD := by
  induction ops generalizing h with
  | nil =>
    simp only [run, Option.some.injEq] at e
    subst e
    exact hi
  | cons op ops ih =>
    simp only [run] at e
    cases hs : h.step op with
    | none => simp [hs] at e
    | some h1 =>
      simp only [hs] at e
      have hop := hops op (List.mem_cons_self _ _)
      exact ih h1 (fun o ho => hops o (List.mem_cons_of_mem _ ho)) e
        (eff_inv k h h1 (eff_step h h1 op hop hs k) hi)

theorem run_no_underflow (ops : List Op) (h h' : Heap)
    (hops : ∀ op ∈ ops, op.is_assign = false)
    (e : h.run ops = some h') (k : GuardId)
    (hi : (h.guards k).refcount = h.live k % UINT32_MOD)
    (hu : (h.guards k).underflowed = false)
    (hb : ∀ pre post h1, ops = pre ++ post → h.run pre = some h1 →
      h1.live k + 1 < UINT32_MOD) :
    (h'.guards k).underflowed = false := by
  induction ops generalizing h with
  | nil =>
    simp only [run, Option.some.injEq] at e
    subst e
    exact hu
  | cons op ops ih =>
    simp only [run] at e
    cases hs : h.step op with
    | none => simp [hs] at e
    | some h1 =>
      simp only [hs] at e
      have hop := hops op (List.mem_cons_self _ _)
      have heff := eff_step h h1 op hop hs k
      have hb0 : h.live k + 1 < UINT32_MOD := hb [] (op :: ops) h rfl rfl
      refine ih h1 (fun o ho => hops o (List.mem_cons_of_mem _ ho)) e
        (eff_inv k h h1 heff hi) (eff_no_underflow k h h1 heff hi hb0 hu) ?_
      intro pre post h2 hpp hrun
      refine hb (op :: pre) post h2 (by rw [hpp]; rfl) ?_
      simp only [run, hs]
      exact hrun

theorem step_returns (h : Heap) (op : Op) (hr : op.returns) : ∃ h', h.step op = some h' := by
  cases op with
  | open_class k0 cls t ws =>
    simp only [step, open_adopt]
    cases hres : (h.guards k0).open_class_maybe_wait t ws with
    | none =>
      exfalso
      obtain ⟨_, _, hcase⟩ := ClassDataGuard.open_class_maybe_wait_none _ _ _ hres
      rcases hr with ht | ⟨w, hw, hp⟩
      · rcases hcase with ⟨h1, _⟩ | ⟨h1, _⟩ <;> omega
      · rcases hcase with ⟨_, h1⟩ | ⟨_, h1⟩
        · exact h1 ⟨w, hw, hp⟩
        · have := (h1 w hw).1
          rw [hp] at this
          exact absurd this (by simp)
    | some res =>
      obtain ⟨r, g⟩ := res
      cases r <;> exact ⟨_, rfl⟩
  | ctor_default => exact ⟨_, rfl⟩
  | ctor_copy src => exact ⟨_, rfl⟩
  | ctor_move src => exact ⟨_, rfl⟩
  | assign_copy a b => exact ⟨_, rfl⟩
  | assign_move a b => exact ⟨_, rfl⟩
  | dtor self => exact ⟨_, rfl⟩
  | block k0 => exact ⟨_, rfl⟩
  | unblock k0 => exact ⟨_, rfl⟩

theorem run_returns (ops : List Op) (h : Heap) (hr : ∀ op ∈ ops, op.returns) :
    ∃ h', h.run ops = some h' := by
  induction ops generalizing h with
  | nil => exact ⟨h, rfl⟩
  | cons op ops ih =>
    obtain ⟨h1, hs⟩ := step_returns h op (hr op (List.mem_cons_self _ _))
    obtain ⟨h2, hrun⟩ := ih h1 (fun o ho => hr o (List.mem_cons_of_mem _ ho))
    exact ⟨h2, by simp only [run, hs]; exact hrun⟩

theorem run_replicate_open (n : Nat) (h : Heap) (hb : (h.guards 0).blocked = false) :
    ∃ h', h.run (List.replicate n (Op.open_class 0 none 0 [])) = some h' ∧
      h'.live 0 = h.live 0 + n ∧ (h'.guards 0).blocked = false := by
  induction n generalizing h with
  | zero => exact ⟨h, rfl, rfl, hb⟩
  | succ n ih =>
    have hstep : h.step (Op.open_class 0 none 0 []) =
        some ((h.set_guard 0 (h.guards 0).incref).ctor_adopt (some 0) none) := by
      simp [step, open_adopt, ClassDataGuard.open_class_maybe_wait,
        ClassDataGuard.is_blocked, ClassDataGuard.incref, hb]
    have hb1 : (((h.set_guard 0 (h.guards 0).incref).ctor_adopt (some 0) none).guards 0).blocked
        = false := by
      simp only [ctor_adopt, guards_alloc, guards_set_guard_same]
      exact hb
    obtain ⟨h2, hrun, hl, hb2⟩ := ih _ hb1
    refine ⟨h2, ?_, ?_, hb2⟩
    · simp only [List.replicate_succ, run, hstep]
      exact hrun
    · rw [hl]
      simp only [ctor_adopt, live_alloc, live_set_guard]
      simp
      omega

end Heap

/-! ## Lemmas on the interleaved threads -/

theorem countP_set_getElem {α : Type} (p : α → Bool) (l : List α) (i : Nat) (a x : α)
    (hx : l[i]? = some x) :
    (l.set i a).countP p + (if p x then 1 else 0) = l.countP p + (if p a then 1 else 0) := by
  obtain ⟨hi, _⟩ := List.getElem?_eq_some.mp hx
  exact countP_set_add p l i a x x hi (by simp [hx])

theorem Opener.step_flags (g : ClassDataGuard) (o : Opener) (d : Bool) :
    (o.step g d).1.blocked = g.blocked := by
  obtain ⟨t, pc⟩ := o
  cases pc <;> simp only [Opener.step] <;> (try split) <;> (try split) <;> rfl

theorem Opener.step_acquired (g : ClassDataGuard) (o : Opener) (d : Bool)
    (h : (o.step g d).2.pc = OpenerPc.acquired) (ho : o.pc ≠ OpenerPc.acquired) :
    g.blocked = false := by
  obtain ⟨t, pc⟩ := o
  cases pc <;> simp only [Opener.step] at h
  · exact absurd h (by simp)
  · split at h
    · rename_i hb
      simpa [ClassDataGuard.is_blocked] using hb
    · exact absurd h (by simp)
  · split at h
    · exact absurd h (by simp)
    · split at h <;> exact absurd h (by simp)
  · split at h
    · rename_i hb
      simpa [ClassDataGuard.is_blocked] using hb
    · split at h
      · exact absurd h (by simp)
      · exact absurd h (by simp)
  · exact absurd h (by simp)
  · exact absurd rfl ho
  · exact absurd h (by simp)
  · exact absurd h (by simp)

theorem Opener.step_refcount (g : ClassDataGuard) (o : Opener) (d : Bool)
    (hinc : o.pinned = false → g.refcount + 1 < UINT32_MOD)
    (hdec : o.pinned = true → 1 ≤ g.refcount) :
    (o.step g d).1.refcount + (if o.pinned = true then 1 else 0) =
      g.refcount + (if (o.step g d).2.pinned = true then 1 else 0) := by
  obtain ⟨t, pc⟩ := o
  cases pc
  · have h1 := hinc rfl
    simp only [Opener.step, Opener.pinned, ClassDataGuard.incref]
    unfold UINT32_MOD at *
    simp
    omega
  · simp only [Opener.step]
    split <;> simp [Opener.pinned]
  · simp only [Opener.step]
    split
    · simp [Opener.pinned]
    · split <;> simp [Opener.pinned]
  · simp only [Opener.step]
    split
    · simp [Opener.pinned]
    · split <;> simp [Opener.pinned]
  · have h1 := hdec rfl
    simp only [Opener.step, Opener.pinned, ClassDataGuard.decref]
    simp
    split <;> omega
  · have h1 := hdec rfl
    simp only [Opener.step, Opener.pinned, ClassDataGuard.decref]
    simp
    split <;> omega
  · simp [Opener.step, Opener.pinned]
  · simp [Opener.step, Opener.pinned]

theorem Opener.step_start_pinned (g : ClassDataGuard) (o : Opener) (d : Bool)
    (h : o.pinned = false) :
    (o.step g d).2.pinned = true ∨
      ((o.step g d).1 = g ∧ (o.step g d).2.pinned = false) := by
  obtain ⟨t, pc⟩ := o
  cases pc <;> simp [Opener.step, Opener.pinned] at h ⊢

namespace Sys

theorem interleaved_step_inv (s : Sys) (e : Event) (hi : s.Inv) : (s.step e).Inv := by
  obtain ⟨hr, hn, hb, hz⟩ := hi
  cases e with
  | closer =>
    cases hc : s.closer with
    | start =>
      refine ⟨?_, ?_, ?_, ?_⟩
      · simpa [step, hc, CloserPc.step, ClassDataGuard.block] using hr
      · simpa [step] using hn
      · intro _
        simp [step, hc, CloserPc.step, ClassDataGuard.block]
      · intro h
        simp [step, hc, CloserPc.step] at h
    | blocked_set =>
      have hb1 := hb (by rw [hc]; simp)
      by_cases hu : s.g.is_used = true
      · refine ⟨?_, ?_, ?_, ?_⟩
        · simpa [step, hc, CloserPc.step, hu] using hr
        · simpa [step] using hn
        · intro _
          simpa [step, hc, CloserPc.step, hu] using hb1
        · intro h
          simp [step, hc, CloserPc.step, hu] at h
      · have hu0 : s.g.is_used = false := by simpa using hu
        have hzero : s.g.refcount = 0 := by
          simpa [ClassDataGuard.is_used] using hu0
        refine ⟨?_, ?_, ?_, ?_⟩
        · simpa [step, hc, CloserPc.step, hu0] using hr
        · simpa [step] using hn
        · intro _
          simpa [step, hc, CloserPc.step, hu0] using hb1
        · intro _ o ho hacq
          have hmem : o ∈ s.openers := by simpa [step] using ho
          have hcnt : s.openers.countP Opener.pinned = 0 := by rw [← hr, hzero]
          have := (List.countP_eq_zero.mp hcnt) o hmem
          apply this
          simp [Opener.pinned, hacq]
    | saw_zero =>
      have hb1 := hb (by rw [hc]; simp)
      refine ⟨?_, ?_, ?_, ?_⟩
      · simpa [step, hc, CloserPc.step] using hr
      · simpa [step] using hn
      · intro _
        simpa [step, hc, CloserPc.step] using hb1
      · intro _ o ho
        have hmem : o ∈ s.openers := by simpa [step] using ho
        exact hz hc o hmem
  | opener i d =>
    cases ho : s.openers[i]? with
    | none => simpa [step, ho, Inv] using ⟨hr, hn, hb, hz⟩
    | some o =>
      have hmem : o ∈ s.openers := List.getElem?_mem ho
      have hcnt := countP_set_getElem Opener.pinned s.openers i (o.step s.g d).2 o ho
      have hle : (s.openers.set i (o.step s.g d).2).countP Opener.pinned ≤ s.openers.length := by
        have := @List.countP_le_length _ Opener.pinned (s.openers.set i (o.step s.g d).2)
        simpa using this
      have hpos : o.pinned = true → 1 ≤ s.g.refcount := by
        intro hp
        rw [hr]
        exact List.countP_pos_iff.mpr ⟨o, hmem, hp⟩
      have hstep : s.step (Event.opener i d) =
          { s with g := (o.step s.g d).1, openers := s.openers.set i (o.step s.g d).2 } := by
        simp only [step, ho]
      rw [hstep]
      refine ⟨?_, ?_, ?_, ?_⟩
      · show (o.step s.g d).1.refcount = (s.openers.set i (o.step s.g d).2).countP Opener.pinned
        by_cases hp : o.pinned = true
        · have hrc := Opener.step_refcount s.g o d (fun h => by rw [hp] at h; simp at h) hpos
          simp only [hp, if_true] at hrc hcnt
          omega
        · have hp0 : o.pinned = false := by simpa using hp
          rcases Opener.step_start_pinned s.g o d hp0 with h1 | h1
          · have hrc := Opener.step_refcount s.g o d
              (fun _ => by
                simp only [hp0, h1, if_true] at hcnt
                simp at hcnt
                omega)
              hpos
            simp only [hp0] at hrc hcnt
            simp at hrc hcnt
            omega
          · rw [h1.1, hr]
            simp only [hp0, h1.2] at hcnt
            simp at hcnt
            omega
      · show (s.openers.set i (o.step s.g d).2).length < UINT32_MOD
        simpa using hn
      · intro hne
        show (o.step s.g d).1.blocked = true
        rw [Opener.step_flags]
        exact hb hne
      · intro hsz o' ho' hacq
        have ho'' : o' ∈ s.openers.set i (o.step s.g d).2 := ho'
        rcases List.mem_or_eq_of_mem_set ho'' with hm | heq
        · exact hz hsz o' hm hacq
        · subst heq
          have hbt : s.g.blocked = true := hb (by
            have : s.closer = CloserPc.saw_zero := hsz
            rw [this]; simp)
          have hne : o.pc ≠ OpenerPc.acquired := hz hsz o hmem
          have := Opener.step_acquired s.g o d hacq hne
          rw [hbt] at this
          exact absurd this (by simp)

end Sys

namespace Sys

theorem interleaved_run_inv (s : Sys) (es : List Event) (hi : s.Inv) : (s.run es).Inv := by
  induction es generalizing s with
  | nil => exact hi
  | cons e es ih => exact ih (s.step e) (interleaved_step_inv s e hi)

theorem step_saw_zero (s : Sys) (e : Event) (h : s.closer = CloserPc.saw_zero) :
    (s.step e).closer = CloserPc.saw_zero := by
  cases e with
  | closer => simp [step, h, CloserPc.step]
  | opener i d =>
    simp only [step]
    split <;> exact h

theorem run_saw_zero (s : Sys) (es : List Event) (h : s.closer = CloserPc.saw_zero) :
    (s.run es).closer = CloserPc.saw_zero := by
  induction es generalizing s with
  | nil => exact h
  | cons e es ih => exact ih (s.step e) (step_saw_zero s e h)

end Sys

/-! ## The claims on `open_class_maybe_wait` and `close_class_wait` -/

/-- C2, as stated, fails where the counter wraps: on an unblocked guard whose `refcount` is
`2^32 - 1`, `open_class_maybe_wait` returns `true` and `refcount` is `0` afterwards, not
`2^32`. -/
theorem open_class_maybe_wait_wraps :
    (ClassDataGuard.open_class_maybe_wait ⟨false, 4294967295, false, false⟩ 0 []).map
        (fun r => (r.1, r.2.refcount)) = some (true, 0) ∧
      (0 : Nat) ≠ 4294967295 + 1 := by
  constructor
  · decide
  · decide

/-- C2 (amended): for every guard whose `refcount` is a `uint32_t`, every timeout and every trace
of the wait, when `open_class_maybe_wait` returns `true` the `refcount` is the old one plus one
modulo `2^32` (so exactly plus one unless it was `2^32 - 1`), when it returns `false` the
`refcount` is the old one; `blocked` and `open_class_waits` are as before in both cases.  The
call returns unless the guard is blocked, openers wait, the timeout is not `0` and the trace ends
with the caller asleep. -/
theorem open_class_maybe_wait_refcount (g : ClassDataGuard) (timeout_s : Int) (ws : List Wake)
    (hwf : g.wf) :
    (∀ r g', g.open_class_maybe_wait timeout_s ws = some (r, g') →
      g'.blocked = g.blocked ∧ g'.open_class_waits = g.open_class_waits ∧
      (r = true → g'.refcount = (g.refcount + 1) % UINT32_MOD ∧
        (g.refcount + 1 < UINT32_MOD → g'.refcount = g.refcount + 1)) ∧
      (r = false → g'.refcount = g.refcount)) ∧
    (g.open_class_maybe_wait timeout_s ws = none →
      g.blocked = true ∧ g.open_class_waits = true ∧
        ((timeout_s < 0 ∧ ¬ EventuallySatisfied ws) ∨ (0 < timeout_s ∧ StillWaiting ws))) := by
  refine ⟨?_, ClassDataGuard.open_class_maybe_wait_none g timeout_s ws⟩
  intro r g' h
  have hinc : g.incref.refcount = (g.refcount + 1) % UINT32_MOD := rfl
  have hdec := ClassDataGuard.incref_decref_refcount g hwf
  rcases ClassDataGuard.open_class_maybe_wait_result g timeout_s ws r g' h with
    ⟨rfl, rfl⟩ | ⟨rfl, rfl⟩
  · exact ⟨rfl, rfl, fun _ => ⟨hinc, fun h => by rw [hinc, Nat.mod_eq_of_lt h]⟩, by simp⟩
  · exact ⟨rfl, rfl, by simp, fun _ => hdec⟩

/-- Witness of C2 (amended): an unblocked guard with two users is acquired, `refcount` goes
from `2` to `3`; a blocked guard with two users, openers waiting, timeout 5, woken once by the
deadline, is left with `refcount` `2`. -/
theorem open_class_maybe_wait_refcount_witness :
    ClassDataGuard.wf ⟨true, 2, false, false⟩ ∧
    ClassDataGuard.open_class_maybe_wait ⟨true, 2, false, false⟩ 0 [] =
      some (true, ⟨true, 3, false, false⟩) ∧
    (⟨true, 3, false, false⟩ : ClassDataGuard).refcount =
      (⟨true, 2, false, false⟩ : ClassDataGuard).refcount + 1 ∧
    ClassDataGuard.open_class_maybe_wait ⟨true, 2, true, false⟩ 5 [⟨true, false⟩] =
      some (false, ⟨true, 2, true, false⟩) ∧
    (⟨true, 2, true, false⟩ : ClassDataGuard).refcount =
      (⟨true, 2, true, false⟩ : ClassDataGuard).refcount :=
  ⟨by decide, by decide,
    (((open_class_maybe_wait_refcount ⟨true, 2, false, false⟩ 0 [] (by decide)).1
      true ⟨true, 3, false, false⟩ (by decide)).2.2.1 rfl).2 (by decide),
    by decide,
    ((open_class_maybe_wait_refcount ⟨true, 2, true, false⟩ 5 [⟨true, false⟩] (by decide)).1
      false ⟨true, 2, true, false⟩ (by decide)).2.2.2 rfl⟩

/-- What `open_class_maybe_wait` computes on a trace of wake-ups whose predicate is "the guard
is not blocked".  Not blocked: `true` for every timeout and every `open_class_waits`.  Blocked
and `open_class_waits` false: `false` for every timeout.  Blocked and waiting allowed: `false`
for timeout `0`; for a negative timeout `true` at the first wake-up that sees the guard
unblocked, and no return without one; for a positive timeout `true` exactly when a wake-up sees
the guard unblocked before the wait expires, `false` exactly when the wait expires first. -/
theorem open_class_maybe_wait_policy (g : ClassDataGuard) (timeout_s : Int) (ws : List Wake) :
    (g.blocked = false → g.open_class_maybe_wait timeout_s ws = some (true, g.incref)) ∧
    (g.blocked = true → g.open_class_waits = false →
      g.open_class_maybe_wait timeout_s ws = some (false, g.incref.decref)) ∧
    (g.blocked = true → g.open_class_waits = true → timeout_s = 0 →
      g.open_class_maybe_wait timeout_s ws = some (false, g.incref.decref)) ∧
    (g.blocked = true → g.open_class_waits = true → timeout_s < 0 →
      (EventuallySatisfied ws → g.open_class_maybe_wait timeout_s ws = some (true, g.incref)) ∧
      (¬ EventuallySatisfied ws → g.open_class_maybe_wait timeout_s ws = none)) ∧
    (g.blocked = true → g.open_class_waits = true → 0 < timeout_s →
      (SatisfiedInTime ws ↔ g.open_class_maybe_wait timeout_s ws = some (true, g.incref)) ∧
      (Expired ws ↔ g.open_class_maybe_wait timeout_s ws = some (false, g.incref.decref)) ∧
      (StillWaiting ws ↔ g.open_class_maybe_wait timeout_s ws = none)) := by
  refine ⟨?_, ?_, ?_, ?_, ?_⟩
  · intro hb
    simp [ClassDataGuard.open_class_maybe_wait, ClassDataGuard.is_blocked,
      ClassDataGuard.incref, hb]
  · intro hb hw
    simp [ClassDataGuard.open_class_maybe_wait, ClassDataGuard.is_blocked,
      ClassDataGuard.incref, hb, hw]
  · intro hb hw ht
    simp [ClassDataGuard.open_class_maybe_wait, ClassDataGuard.is_blocked,
      ClassDataGuard.incref, hb, hw, ht]
  · intro hb hw ht
    have hne : timeout_s ≠ 0 := by omega
    have hb1 : g.incref.blocked = true := hb
    rw [ClassDataGuard.open_class_maybe_wait_waiting g timeout_s ws hb hw hne,
      ClassDataGuard.open_class_wait_blocked_neg _ _ _ hb1 ht]
    constructor
    · intro h
      rw [(cv_wait_some_iff ws).mpr h]
      rfl
    · intro h
      rw [(cv_wait_none_iff ws).mpr h]
      rfl
  · intro hb hw ht
    have hne : timeout_s ≠ 0 := by omega
    have hb1 : g.incref.blocked = true := hb
    rw [ClassDataGuard.open_class_maybe_wait_waiting g timeout_s ws hb hw hne,
      ClassDataGuard.open_class_wait_blocked_pos _ _ _ hb1 ht,
      ← cv_wait_for_some_true_iff, ← cv_wait_for_some_false_iff, ← cv_wait_for_none_iff]
    cases hc : cv_wait_for false ws with
    | none => simp
    | some b => cases b <;> simp

/-- One concrete call of `open_class_maybe_wait` for each branch. -/
theorem open_class_maybe_wait_policy_witness :
    ClassDataGuard.open_class_maybe_wait ⟨false, 3, false, false⟩ 0 [] =
      some (true, ⟨false, 4, false, false⟩) ∧
    ClassDataGuard.open_class_maybe_wait ⟨false, 3, true, false⟩ (-1) [⟨false, true⟩] =
      some (false, ⟨false, 3, true, false⟩) ∧
    ClassDataGuard.open_class_maybe_wait ⟨true, 3, true, false⟩ 0 [⟨false, true⟩] =
      some (false, ⟨true, 3, true, false⟩) ∧
    ClassDataGuard.open_class_maybe_wait ⟨true, 3, true, false⟩ (-1)
      [⟨true, false⟩, ⟨false, true⟩] = some (true, ⟨true, 4, true, false⟩) ∧
    ClassDataGuard.open_class_maybe_wait ⟨true, 3, true, false⟩ 7
      [⟨false, false⟩, ⟨true, false⟩, ⟨false, true⟩] = some (false, ⟨true, 3, true, false⟩) :=
  ⟨(open_class_maybe_wait_policy ⟨false, 3, false, false⟩ 0 []).1 rfl,
   (open_class_maybe_wait_policy ⟨false, 3, true, false⟩ (-1) [⟨false, true⟩]).2.1 rfl rfl,
   (open_class_maybe_wait_policy ⟨true, 3, true, false⟩ 0 [⟨false, true⟩]).2.2.1 rfl rfl rfl,
   ((open_class_maybe_wait_policy ⟨true, 3, true, false⟩ (-1)
      [⟨true, false⟩, ⟨false, true⟩]).2.2.2.1 rfl rfl (by decide)).1
      ⟨⟨false, true⟩, by simp, rfl⟩,
   ((open_class_maybe_wait_policy ⟨true, 3, true, false⟩ 7
      [⟨false, false⟩, ⟨true, false⟩, ⟨false, true⟩]).2.2.2.2 rfl rfl (by decide)).2.1.mp
      ⟨[⟨false, false⟩], ⟨true, false⟩, [⟨false, true⟩], rfl, rfl, rfl, by simp⟩⟩

/-- A thread asleep in `wait(lock)` after `unblock()` has finished stays there: no step of
either thread changes the state. -/
theorem WaitSys.step_asleep_finished (g : ClassDataGuard) (e : WaitEvent) :
    WaitSys.step ⟨g, WaiterPc.asleep, UnblockerPc.finished⟩ e =
      ⟨g, WaiterPc.asleep, UnblockerPc.finished⟩ := by
  cases e <;> rfl

/-- The same for every schedule. -/
theorem WaitSys.run_asleep_finished (g : ClassDataGuard) (es : List WaitEvent) :
    WaitSys.run ⟨g, WaiterPc.asleep, UnblockerPc.finished⟩ es =
      ⟨g, WaiterPc.asleep, UnblockerPc.finished⟩ := by
  induction es with
  | nil => rfl
  | cons e es ih =>
    simp only [WaitSys.run]
    rw [WaitSys.step_asleep_finished, ih]

/-- C3, at the failing input: a blocked guard on which opens wait, one thread in
`open_class_maybe_wait(-1)` and one in `unblock()`.  After five steps the waiter has done its
`incref()`, has seen the guard blocked and is about to call `wait(lock)`.  When both statements
of `unblock()` run at that point, the notification finds nobody asleep: after the waiter's next
step the guard is not blocked, `unblock()` has finished, and the waiter is asleep holding its
increment; whatever is scheduled from then on, the state stays the same and the call does not
return.  When instead `unblock()` runs after the waiter has fallen asleep, the call returns
`true`.  On a trace of wake-ups the lost notification is the empty trace. -/
theorem open_class_maybe_wait_lost_wakeup (later : List WaitEvent) :
    WaitSys.run ⟨⟨true, 0, true, false⟩, WaiterPc.start, UnblockerPc.start⟩
        [WaitEvent.waiter, WaitEvent.waiter, WaitEvent.waiter, WaitEvent.waiter,
         WaitEvent.waiter] =
      ⟨⟨true, 1, true, false⟩, WaiterPc.about_to_sleep, UnblockerPc.start⟩ ∧
    WaitSys.run ⟨⟨true, 0, true, false⟩, WaiterPc.start, UnblockerPc.start⟩
        [WaitEvent.waiter, WaitEvent.waiter, WaitEvent.waiter, WaitEvent.waiter,
         WaitEvent.waiter, WaitEvent.unblocker, WaitEvent.unblocker, WaitEvent.waiter] =
      ⟨⟨true, 1, false, false⟩, WaiterPc.asleep, UnblockerPc.finished⟩ ∧
    ClassDataGuard.is_blocked ⟨true, 1, false, false⟩ = false ∧
    WaitSys.run
        (WaitSys.run ⟨⟨true, 0, true, false⟩, WaiterPc.start, UnblockerPc.start⟩
          [WaitEvent.waiter, WaitEvent.waiter, WaitEvent.waiter, WaitEvent.waiter,
           WaitEvent.waiter, WaitEvent.unblocker, WaitEvent.unblocker, WaitEvent.waiter])
        later =
      ⟨⟨true, 1, false, false⟩, WaiterPc.asleep, UnblockerPc.finished⟩ ∧
    WaitSys.run ⟨⟨true, 0, true, false⟩, WaiterPc.start, UnblockerPc.start⟩
        [WaitEvent.waiter, WaitEvent.waiter, WaitEvent.waiter, WaitEvent.waiter,
         WaitEvent.waiter, WaitEvent.waiter, WaitEvent.unblocker, WaitEvent.unblocker,
         WaitEvent.waiter] =
      ⟨⟨true, 1, false, false⟩, WaiterPc.returned_true, UnblockerPc.finished⟩ ∧
    ClassDataGuard.open_class_maybe_wait ⟨true, 0, true, false⟩ (-1) [] = none := by
  have hrun : WaitSys.run ⟨⟨true, 0, true, false⟩, WaiterPc.start, UnblockerPc.start⟩
        [WaitEvent.waiter, WaitEvent.waiter, WaitEvent.waiter, WaitEvent.waiter,
         WaitEvent.waiter, WaitEvent.unblocker, WaitEvent.unblocker, WaitEvent.waiter] =
      ⟨⟨true, 1, false, false⟩, WaiterPc.asleep, UnblockerPc.finished⟩ := by decide
  refine ⟨by decide, hrun, by decide, ?_, by decide, by decide⟩
  rw [hrun, WaitSys.run_asleep_finished]

/-- C4, at the failing input: a guard nobody uses (`refcount` `0`) and timeout `0`.
`close_class_wait(0)` returns `false` although `is_used()` is `false`.  On the same guard the
two other branches of `close_class_wait` return `true` without waiting, and
`open_class_maybe_wait(0)` returns `true` on a guard that is not blocked. -/
theorem close_class_wait_zero_timeout_idle :
    ClassDataGuard.is_used ⟨true, 0, true, false⟩ = false ∧
    ClassDataGuard.close_class_wait ⟨true, 0, true, false⟩ 0 [] = some false ∧
    ClassDataGuard.close_class_wait ⟨true, 0, true, false⟩ 5 [] = some true ∧
    ClassDataGuard.close_class_wait ⟨true, 0, true, false⟩ (-1) [] = some true ∧
    ClassDataGuard.open_class_maybe_wait ⟨true, 0, false, false⟩ 0 [] =
      some (true, ⟨true, 1, false, false⟩) := by
  refine ⟨by decide, by decide, by decide, by decide, by decide⟩

/-- What `close_class_wait` computes on a trace of wake-ups whose predicate is "`refcount` is
`0`".  Timeout `0`: `false` without waiting and without a look at `refcount`.  Timeout not `0`
and `refcount` `0` at the call: `true`.  `refcount > 0`: for a negative timeout `true` at the
first wake-up that sees `refcount` `0`, and no return without one; for a positive timeout `true`
exactly when a wake-up sees `refcount` `0` before the wait expires, `false` exactly when the wait
expires first. -/
theorem close_class_wait_policy (g : ClassDataGuard) (timeout_s : Int) (ws : List Wake) :
    (timeout_s = 0 → g.close_class_wait timeout_s ws = some false) ∧
    (g.refcount = 0 → timeout_s ≠ 0 → g.close_class_wait timeout_s ws = some true) ∧
    (0 < g.refcount → timeout_s < 0 →
      (EventuallySatisfied ws → g.close_class_wait timeout_s ws = some true) ∧
      (¬ EventuallySatisfied ws → g.close_class_wait timeout_s ws = none)) ∧
    (0 < g.refcount → 0 < timeout_s →
      (SatisfiedInTime ws ↔ g.close_class_wait timeout_s ws = some true) ∧
      (Expired ws ↔ g.close_class_wait timeout_s ws = some false) ∧
      (StillWaiting ws ↔ g.close_class_wait timeout_s ws = none)) := by
  refine ⟨?_, ?_, ?_, ?_⟩
  · intro ht
    simp [ClassDataGuard.close_class_wait, ht]
  · intro hr ht
    rcases lt_trichotomy timeout_s 0 with hneg | hz | hpos
    · have h1 : ¬ (0 < timeout_s) := by omega
      simp [ClassDataGuard.close_class_wait, ClassDataGuard.is_used, hr, hneg, h1]
    · exact absurd hz ht
    · simp [ClassDataGuard.close_class_wait, ClassDataGuard.is_used, hr, hpos]
  · intro hr ht
    have h1 : ¬ (0 < timeout_s) := by omega
    have hu : g.is_used = true := by simp [ClassDataGuard.is_used, hr]
    have e : g.close_class_wait timeout_s ws = (cv_wait false ws).map (fun _ => true) := by
      simp [ClassDataGuard.close_class_wait, hu, ht, h1]
    rw [e]
    constructor
    · intro h
      rw [(cv_wait_some_iff ws).mpr h]
      rfl
    · intro h
      rw [(cv_wait_none_iff ws).mpr h]
      rfl
  · intro hr ht
    have hu : g.is_used = true := by simp [ClassDataGuard.is_used, hr]
    have e : g.close_class_wait timeout_s ws = cv_wait_for false ws := by
      simp [ClassDataGuard.close_class_wait, hu, ht]
    rw [e, ← cv_wait_for_some_true_iff, ← cv_wait_for_some_false_iff, ← cv_wait_for_none_iff]
    cases hc : cv_wait_for false ws with
    | none => simp
    | some b => cases b <;> simp

/-- One concrete call of `close_class_wait` for each branch. -/
theorem close_class_wait_policy_witness :
    ClassDataGuard.close_class_wait ⟨true, 0, true, false⟩ 0 [⟨false, true⟩] = some false ∧
    ClassDataGuard.close_class_wait ⟨true, 0, true, false⟩ 9 [] = some true ∧
    ClassDataGuard.close_class_wait ⟨true, 2, true, false⟩ (-1)
      [⟨false, false⟩, ⟨false, true⟩] = some true ∧
    ClassDataGuard.close_class_wait ⟨true, 2, true, false⟩ 9
      [⟨false, false⟩, ⟨true, false⟩] = some false :=
  ⟨(close_class_wait_policy ⟨true, 0, true, false⟩ 0 [⟨false, true⟩]).1 rfl,
   (close_class_wait_policy ⟨true, 0, true, false⟩ 9 []).2.1 rfl (by decide),
   ((close_class_wait_policy ⟨true, 2, true, false⟩ (-1)
      [⟨false, false⟩, ⟨false, true⟩]).2.2.1 (by decide) (by decide)).1
      ⟨⟨false, true⟩, by simp, rfl⟩,
   ((close_class_wait_policy ⟨true, 2, true, false⟩ 9
      [⟨false, false⟩, ⟨true, false⟩]).2.2.2 (by decide) (by decide)).2.1.mp
      ⟨[⟨false, false⟩], ⟨true, false⟩, [], rfl, rfl, rfl, by simp⟩⟩

/-! ## The claims on handles -/

/-- C1, as stated, fails where the counter wraps: after `2^32` successful `open_class_maybe_wait`
calls on a fresh guard, each adopted into a `ClassDataPtr`, `2^32` handles are live and bound to
the guard, and its `refcount` is `0`. -/
theorem refcount_wraps_at_two_pow_32_handles :
    ∃ h, (Heap.fresh (fun _ => false)).run
        (List.replicate 4294967296 (Op.open_class 0 none 0 [])) = some h ∧
      (h.guards 0).refcount = 0 ∧ h.live 0 = 4294967296 := by
  obtain ⟨h, hrun, hl, _⟩ :=
    Heap.run_replicate_open 4294967296 (Heap.fresh (fun _ => false)) rfl
  have hl0 : h.live 0 = 4294967296 := by
    rw [hl]
    rfl
  have hinv := Heap.run_inv _ _ h
    (fun op hop => by rw [List.eq_of_mem_replicate hop]; rfl) hrun 0 rfl
  refine ⟨h, hrun, ?_, hl0⟩
  rw [hinv, hl0]
  rfl

/-- C1 (amended): start from freshly constructed guards and run any finite sequence of
`open_class_maybe_wait` (any timeout, any trace, its success adopted into a new `ClassDataPtr`),
copy construction, destruction, `block` and `unblock` (default and move construction are allowed
as well; the assignment operators are not).  Then the `refcount` of every guard equals the number
of live `ClassDataPtr` objects bound to it modulo `2^32`, so equals it exactly when fewer than
`2^32` are live; and if fewer than `2^32 - 1` were live at every point of the sequence, no
`decref` was ever executed at `refcount` `0`.  The sequence runs to its end when every
`open_class` in it returns. -/
theorem refcount_counts_live_handles (waits : GuardId → Bool) (ops : List Op)
    (hops : ∀ op ∈ ops, op.is_assign = false) :
    ((∀ op ∈ ops, op.returns) → ∃ h, (Heap.fresh waits).run ops = some h) ∧
    ∀ h, (Heap.fresh waits).run ops = some h → ∀ k,
      (h.guards k).refcount = h.live k % UINT32_MOD ∧
      (h.live k < UINT32_MOD → (h.guards k).refcount = h.live k) ∧
      ((∀ pre post h1, ops = pre ++ post → (Heap.fresh waits).run pre = some h1 →
          h1.live k + 1 < UINT32_MOD) → (h.guards k).underflowed = false) := by
  refine ⟨Heap.run_returns ops _, ?_⟩
  intro h hrun k
  have hinv := Heap.run_inv ops _ h hops hrun k rfl
  refine ⟨hinv, ?_, ?_⟩
  · intro hlt
    rw [hinv, Nat.mod_eq_of_lt hlt]
  · intro hb
    exact Heap.run_no_underflow ops _ h hops hrun k rfl rfl hb

/-- Witness of C1 (amended): open, copy, block, a rejected open, destroy the first handle,
unblock; one handle is left and `refcount` is `1`. -/
theorem refcount_counts_live_handles_witness :
    ∃ h, (Heap.fresh (fun _ => false)).run
        [Op.open_class 0 (some 7) 0 [], Op.ctor_copy 0, Op.block 0,
          Op.open_class 0 (some 7) 3 [⟨true, false⟩], Op.dtor 0, Op.unblock 0] = some h ∧
      h.live 0 = 1 ∧ (h.guards 0).refcount = h.live 0 ∧ (h.guards 0).underflowed = false := by
  have hsome : ((Heap.fresh (fun _ => false)).run
      [Op.open_class 0 (some 7) 0 [], Op.ctor_copy 0, Op.block 0,
        Op.open_class 0 (some 7) 3 [⟨true, false⟩], Op.dtor 0, Op.unblock 0]).isSome = true := by
    decide
  have hthm := (refcount_counts_live_handles (fun _ => false)
    [Op.open_class 0 (some 7) 0 [], Op.ctor_copy 0, Op.block 0,
      Op.open_class 0 (some 7) 3 [⟨true, false⟩], Op.dtor 0, Op.unblock 0]
    (by decide)).2 _ (Option.some_get hsome).symm 0
  have hl : (Option.get _ hsome).live 0 = 1 := rfl
  exact ⟨_, (Option.some_get hsome).symm, hl, hthm.2.1 (by rw [hl]; decide), rfl⟩

/-- C5, at the failing inputs: `a = b` on a bound `a` and an empty `b` leaves `refcount` `1`
with no handle bound; `a = a` leaves `refcount` `2` with one handle bound; `a = std::move(b)`
on a bound `a` leaves the `refcount` of the guard of `a` at `1` with no handle bound to it; and
after destroying every handle the `refcount` is still `1`, not the `0` it was before the
acquisition. -/
theorem assignment_leaks_refcount :
    ((Heap.fresh (fun _ => false)).run
        [Op.open_class 0 (some 7) 0 [], Op.ctor_default, Op.assign_copy 0 1]).map
      (fun h => ((h.guards 0).refcount, h.live 0)) = some (1, 0) ∧
    ((Heap.fresh (fun _ => false)).run
        [Op.open_class 0 (some 7) 0 [], Op.assign_copy 0 0]).map
      (fun h => ((h.guards 0).refcount, h.live 0)) = some (2, 1) ∧
    ((Heap.fresh (fun _ => false)).run
        [Op.open_class 0 (some 7) 0 [], Op.open_class 1 (some 8) 0 [], Op.assign_move 0 1]).map
      (fun h => ((h.guards 0).refcount, h.live 0, (h.guards 1).refcount, h.live 1))
      = some (1, 0, 1, 1) ∧
    ((Heap.fresh (fun _ => false)).run
        [Op.open_class 0 (some 7) 0 [], Op.ctor_default, Op.assign_copy 0 1,
          Op.dtor 0, Op.dtor 1]).map
      (fun h => ((h.guards 0).refcount, h.live 0, h.ptrs)) = some (1, 0, [none, none]) := by
  refine ⟨?_, ?_, ?_, ?_⟩ <;> decide

/-- C6: `operator->` throws `std::bad_weak_ptr` exactly when `cls` is null, and otherwise
returns that non-null `cls`; a default-constructed handle and a moved-from handle (after the move
constructor or the move assignment) throw on dereference. -/
theorem arrow_throws_iff_cls_null (p : ClassDataPtr) :
    (p.arrow = Except.error Exn.bad_weak_ptr ↔ p.cls = none) ∧
    (∀ c, p.arrow = Except.ok c ↔ p.cls = some c) ∧
    (∀ h : Heap, (h.ctor_default.get h.ptrs.length).map ClassDataPtr.arrow =
      some (Except.error Exn.bad_weak_ptr)) ∧
    (∀ (h : Heap) (src : Nat), h.get src = some p →
      ((h.ctor_move src).get src).map ClassDataPtr.arrow =
        some (Except.error Exn.bad_weak_ptr)) ∧
    (∀ (h : Heap) (self src : Nat) (a : ClassDataPtr), h.get self = some a →
      h.get src = some p →
      ((h.assign_move self src).get src).map ClassDataPtr.arrow =
        some (Except.error Exn.bad_weak_ptr)) := by
  refine ⟨?_, ?_, ?_, ?_, ?_⟩
  · cases hc : p.cls <;> simp [ClassDataPtr.arrow, hc]
  · intro c
    cases hc : p.cls <;> simp [ClassDataPtr.arrow, hc]
  · intro h
    rw [Heap.ctor_default, Heap.get_alloc_new]
    rfl
  · intro h src hs
    have hlt := h.get_lt src p hs
    simp only [Heap.ctor_move, hs]
    rw [Heap.get_set_same _ _ _ (by simp [Heap.alloc]; omega)]
    rfl
  · intro h self src a ha hs
    have hlt := h.get_lt src p hs
    simp only [Heap.assign_move, ha, hs]
    rw [Heap.get_set_same _ _ _ (by simp [Heap.set]; omega)]
    rfl

/-- Witness of C6: a handle with a record, and a moved-from handle in a heap of one handle. -/
theorem arrow_throws_iff_cls_null_witness :
    ClassDataPtr.arrow ⟨some 0, some 7⟩ = Except.ok 7 ∧
    ((Heap.ctor_move ⟨fun _ => ClassDataGuard.init false, [some ⟨some 0, some 7⟩]⟩ 0).get 0).map
      ClassDataPtr.arrow = some (Except.error Exn.bad_weak_ptr) :=
  ⟨((arrow_throws_iff_cls_null ⟨some 0, some 7⟩).2.1 7).mpr rfl,
   (arrow_throws_iff_cls_null ⟨some 0, some 7⟩).2.2.2.1
     ⟨fun _ => ClassDataGuard.init false, [some ⟨some 0, some 7⟩]⟩ 0 rfl⟩

/-- C7: move construction from a live handle `s` in slot `src`.  No guard changes, so every
`refcount` is what it was; the new handle (in the next free slot) has the `cdg` and `cls` the
source had; the source is left with both pointers null and converts to `false`; destroying the
source afterwards changes no guard.  Destroying the destination, before or after the source,
releases the one acquisition: if `s` was bound to the guard `k`, the `refcount` of `k` ends one
below its value before the move (`2^32 - 1` if it was `0`), which for a positive `refcount` is
exactly one less, the flags of `k` and every other guard are as before; if `s.cdg` was null no
guard changes at all. -/
theorem ctor_move_transfers_pin (h : Heap) (src : Nat) (s : ClassDataPtr)
    (hs : h.get src = some s) :
    (h.ctor_move src).guards = h.guards ∧
    (∀ k, (h.ctor_move src).live k = h.live k) ∧
    (h.ctor_move src).get h.ptrs.length = some s ∧
    (h.ctor_move src).get src = some ⟨none, none⟩ ∧
    ClassDataPtr.to_bool ⟨none, none⟩ = false ∧
    ((h.ctor_move src).dtor src).guards = h.guards ∧
    (((h.ctor_move src).dtor src).dtor h.ptrs.length).guards = (h.decref_if s.cdg).guards ∧
    (((h.ctor_move src).dtor h.ptrs.length).dtor src).guards = (h.decref_if s.cdg).guards ∧
    (∀ k, s.cdg = some k →
      ((((h.ctor_move src).dtor src).dtor h.ptrs.length).guards k).refcount =
        (if (h.guards k).refcount = 0 then UINT32_MOD - 1 else (h.guards k).refcount - 1) ∧
      ((((h.ctor_move src).dtor h.ptrs.length).dtor src).guards k).refcount =
        (if (h.guards k).refcount = 0 then UINT32_MOD - 1 else (h.guards k).refcount - 1) ∧
      (0 < (h.guards k).refcount →
        ((((h.ctor_move src).dtor src).dtor h.ptrs.length).guards k).refcount + 1 =
          (h.guards k).refcount ∧
        ((((h.ctor_move src).dtor h.ptrs.length).dtor src).guards k).refcount + 1 =
          (h.guards k).refcount) ∧
      ((((h.ctor_move src).dtor src).dtor h.ptrs.length).guards k).blocked =
        (h.guards k).blocked ∧
      ((((h.ctor_move src).dtor src).dtor h.ptrs.length).guards k).open_class_waits =
        (h.guards k).open_class_waits ∧
      (∀ j, j ≠ k →
        (((h.ctor_move src).dtor src).dtor h.ptrs.length).guards j = h.guards j ∧
        (((h.ctor_move src).dtor h.ptrs.length).dtor src).guards j = h.guards j)) ∧
    (s.cdg = none →
      (((h.ctor_move src).dtor src).dtor h.ptrs.length).guards = h.guards ∧
      (((h.ctor_move src).dtor h.ptrs.length).dtor src).guards = h.guards) := by
  have hlt := h.get_lt src s hs
  have hne : src ≠ h.ptrs.length := by omega
  have hm : h.ctor_move src = (h.alloc ⟨s.cdg, s.cls⟩).set src (some ⟨none, none⟩) := by
    simp only [Heap.ctor_move, hs]
  have hlen : src < (h.alloc ⟨s.cdg, s.cls⟩).ptrs.length := by
    simp [Heap.alloc]
    omega
  have hnew : (h.ctor_move src).get h.ptrs.length = some s := by
    rw [hm, Heap.get_set_other _ _ _ _ hne, Heap.get_alloc_new]
  have hsrc : (h.ctor_move src).get src = some ⟨none, none⟩ := by
    rw [hm, Heap.get_set_same _ _ _ hlen]
  have hg : (h.ctor_move src).guards = h.guards := by rw [hm]; rfl
  have hdec : ∀ h1 : Heap, h1.guards = h.guards →
      (h1.decref_if s.cdg).guards = (h.decref_if s.cdg).guards := by
    intro h1 e
    cases hc : s.cdg with
    | none => exact e
    | some k => simp only [Heap.decref_if, Heap.set_guard, e]
  have hd_src : ∀ h1 : Heap, h1.get src = some ⟨none, none⟩ →
      (h1.dtor src).guards = h1.guards := by
    intro h1 e
    simp only [Heap.dtor, e]
    rfl
  have hd_new : ∀ h1 : Heap, h1.get h.ptrs.length = some s → h1.guards = h.guards →
      (h1.dtor h.ptrs.length).guards = (h.decref_if s.cdg).guards := by
    intro h1 e eg
    simp only [Heap.dtor, e, Heap.guards_set]
    exact hdec h1 eg
  have h7 : (((h.ctor_move src).dtor src).dtor h.ptrs.length).guards =
      (h.decref_if s.cdg).guards := by
    apply hd_new
    · simp only [Heap.dtor, hsrc, Heap.decref_if]
      rw [Heap.get_set_other _ _ _ _ hne]
      exact hnew
    · rw [hd_src _ hsrc, hg]
  have h8 : (((h.ctor_move src).dtor h.ptrs.length).dtor src).guards =
      (h.decref_if s.cdg).guards := by
    have e1 : ((h.ctor_move src).dtor h.ptrs.length).get src = some ⟨none, none⟩ := by
      simp only [Heap.dtor, hnew]
      rw [Heap.get_set_other _ _ _ _ (Ne.symm hne)]
      cases hc : s.cdg with
      | none => exact hsrc
      | some k => exact hsrc
    rw [hd_src _ e1]
    exact hd_new _ hnew hg
  refine ⟨hg, ?_, hnew, hsrc, rfl, ?_, h7, h8, ?_, ?_⟩
  · intro k
    rcases Heap.eff_ctor_move h src k with ⟨hl, _, _⟩ | ⟨hl, hgk⟩ | ⟨hl, hgk⟩ | ⟨hl, hgk⟩
    · exact hl
    · exfalso
      rw [hg] at hgk
      have := congrArg ClassDataGuard.refcount hgk
      simp only [ClassDataGuard.incref] at this
      unfold UINT32_MOD at this
      omega
    · have hs1 := Heap.live_set (h.alloc ⟨s.cdg, s.cls⟩) src s (some ⟨none, none⟩) k
        (by rw [Heap.get_alloc_old _ _ _ hlt, hs])
      have h2 := Heap.live_alloc h ⟨s.cdg, s.cls⟩ k
      rw [hm]
      simp [Heap.bound] at hs1
      simp at h2
      omega
    · exact hl
  · rw [hd_src _ hsrc, hg]
  · intro k hk
    have hk1 : (h.decref_if s.cdg).guards k = (h.guards k).decref := by
      rw [hk]
      exact Heap.guards_set_guard_same h k _
    have hr : ((h.guards k).decref).refcount =
        (if (h.guards k).refcount = 0 then UINT32_MOD - 1 else (h.guards k).refcount - 1) := by
      simp only [ClassDataGuard.decref]
    have hp : 0 < (h.guards k).refcount →
        ((h.guards k).decref).refcount + 1 = (h.guards k).refcount := by
      intro hpos
      rw [hr, if_neg (by omega)]
      omega
    rw [h7, h8, hk1]
    refine ⟨hr, hr, fun hpos => ⟨hp hpos, hp hpos⟩, ?_, ?_, ?_⟩
    · simp only [ClassDataGuard.decref]
    · simp only [ClassDataGuard.decref]
    · intro j hj
      rw [hk]
      exact ⟨Heap.guards_set_guard_other h k j _ hj, Heap.guards_set_guard_other h k j _ hj⟩
  · intro hn
    rw [h7, h8, hn]
    exact ⟨rfl, rfl⟩

/-- Witness of C7: one handle bound to guard `0`, whose `refcount` is `1`, is moved.  The
destination holds the binding, the source is empty, the `refcount` is still `1` after the move
and after the source is destroyed, and `0` once the destination is destroyed. -/
theorem ctor_move_transfers_pin_witness :
    (Heap.ctor_move ⟨fun _ => ⟨false, 1, false, false⟩, [some ⟨some 0, some 7⟩]⟩ 0).get 1 =
      some ⟨some 0, some 7⟩ ∧
    (Heap.ctor_move ⟨fun _ => ⟨false, 1, false, false⟩, [some ⟨some 0, some 7⟩]⟩ 0).get 0 =
      some ⟨none, none⟩ ∧
    ((Heap.ctor_move ⟨fun _ => ⟨false, 1, false, false⟩, [some ⟨some 0, some 7⟩]⟩ 0).guards
      0).refcount = 1 ∧
    (((Heap.ctor_move ⟨fun _ => ⟨false, 1, false, false⟩, [some ⟨some 0, some 7⟩]⟩ 0).dtor
      0).guards 0).refcount = 1 ∧
    ((((Heap.ctor_move ⟨fun _ => ⟨false, 1, false, false⟩, [some ⟨some 0, some 7⟩]⟩ 0).dtor
      0).dtor 1).guards 0).refcount = 0 ∧
    ((((Heap.ctor_move ⟨fun _ => ⟨false, 1, false, false⟩, [some ⟨some 0, some 7⟩]⟩ 0).dtor
      1).dtor 0).guards 0).refcount = 0 :=
  ⟨(ctor_move_transfers_pin ⟨fun _ => ⟨false, 1, false, false⟩, [some ⟨some 0, some 7⟩]⟩ 0
      ⟨some 0, some 7⟩ rfl).2.2.1,
   (ctor_move_transfers_pin ⟨fun _ => ⟨false, 1, false, false⟩, [some ⟨some 0, some 7⟩]⟩ 0
      ⟨some 0, some 7⟩ rfl).2.2.2.1,
   congrArg (fun f => (f 0).refcount)
     (ctor_move_transfers_pin ⟨fun _ => ⟨false, 1, false, false⟩, [some ⟨some 0, some 7⟩]⟩ 0
      ⟨some 0, some 7⟩ rfl).1,
   congrArg (fun f => (f 0).refcount)
     (ctor_move_transfers_pin ⟨fun _ => ⟨false, 1, false, false⟩, [some ⟨some 0, some 7⟩]⟩ 0
      ⟨some 0, some 7⟩ rfl).2.2.2.2.2.1,
   ((ctor_move_transfers_pin ⟨fun _ => ⟨false, 1, false, false⟩, [some ⟨some 0, some 7⟩]⟩ 0
      ⟨some 0, some 7⟩ rfl).2.2.2.2.2.2.2.2.1 0 rfl).1,
   ((ctor_move_transfers_pin ⟨fun _ => ⟨false, 1, false, false⟩, [some ⟨some 0, some 7⟩]⟩ 0
      ⟨some 0, some 7⟩ rfl).2.2.2.2.2.2.2.2.1 0 rfl).2.1⟩

/-! ## The claims on the registry functions -/

/-- C8: `unblock_class(name)` returns `-ENOENT` exactly when no guard exists under `name`, and
then changes nothing; otherwise it returns `0`, the guard under `name` is the old one with
`blocked` false and `refcount` and `open_class_waits` as before, whatever `blocked` was, and
every other entry is as before. -/
theorem unblock_class_spec (r : Handler) (cname : String) :
    ((r.unblock_class cname).1 = -ENOENT ↔ r.class_guards cname = none) ∧
    (r.class_guards cname = none → r.unblock_class cname = (-ENOENT, r)) ∧
    (∀ g, r.class_guards cname = some g →
      (r.unblock_class cname).1 = 0 ∧
      (r.unblock_class cname).2.class_guards cname = some g.unblock ∧
      g.unblock.blocked = false ∧ g.unblock.refcount = g.refcount ∧
      g.unblock.open_class_waits = g.open_class_waits ∧
      ∀ other, other ≠ cname →
        (r.unblock_class cname).2.class_guards other = r.class_guards other) := by
  refine ⟨?_, ?_, ?_⟩
  · cases hc : r.class_guards cname with
    | none => simp [Handler.unblock_class, Handler._get_class_guard, hc]
    | some g => simp [Handler.unblock_class, Handler._get_class_guard, hc, ENOENT]
  · intro hc
    simp [Handler.unblock_class, Handler._get_class_guard, hc]
  · intro g hc
    refine ⟨?_, ?_, rfl, rfl, rfl, ?_⟩
    · simp [Handler.unblock_class, Handler._get_class_guard, hc]
    · simp [Handler.unblock_class, Handler._get_class_guard, hc]
    · intro other hne
      simp [Handler.unblock_class, Handler._get_class_guard, hc, Function.update_noteq hne]

/-- Witness of C8: a handler with one blocked guard, under the name `a`. -/
theorem unblock_class_spec_witness :
    (Handler.unblock_class ⟨fun n => if n = "a" then some ⟨true, 2, true, false⟩ else none⟩
      "b").1 = -ENOENT ∧
    (Handler.unblock_class ⟨fun n => if n = "a" then some ⟨true, 2, true, false⟩ else none⟩
      "a").2.class_guards "a" = some ⟨true, 2, false, false⟩ :=
  ⟨(unblock_class_spec ⟨fun n => if n = "a" then some ⟨true, 2, true, false⟩ else none⟩
      "b").1.mpr (by decide),
   ((unblock_class_spec ⟨fun n => if n = "a" then some ⟨true, 2, true, false⟩ else none⟩
      "a").2.2 ⟨true, 2, true, false⟩ (by decide)).2.1⟩

/-- C10: `reload_class(name)` is `close_class(name, false, true)`, that is close with
disable = false and blocking opens, and `unload_and_block_class(name)` is
`close_class(name, true, false)`, that is close with disable = true and non-blocking opens:
same result and same state after the call, for every `close_class`. -/
theorem reload_and_unload_are_close_class {σ : Type}
    (close_class : σ → String → Bool → Bool → Int × σ) (s : σ) (cname : String) :
    reload_class close_class s cname = close_class s cname false true ∧
    unload_and_block_class close_class s cname = close_class s cname true false ∧
    reload_class close_class s cname = spec_reload close_class s cname ∧
    unload_and_block_class close_class s cname =
      spec_unload_and_disable close_class s cname :=
  ⟨rfl, rfl, rfl, rfl⟩

/-! ## The claim on the interleaving of openers and the closer -/

/-- C9: start with the closer before `block()`, any number (below `2^32`) of opener threads
anywhere in `open_class_maybe_wait`, and `refcount` equal to the number of threads that hold an
increment.  Under every schedule: once the closer has seen `refcount` `0` after `block()`, the
guard is blocked, no opener holds a successful acquisition, and under every further schedule (the
guard stays blocked, nobody unblocks it) no opener obtains one: each ends in the wait or the
reject path. -/
theorem no_acquisition_after_zero_check (s0 : Sys) (sched later : List Event)
    (hc : s0.closer = CloserPc.start)
    (hr : s0.g.refcount = s0.openers.countP Opener.pinned)
    (hn : s0.openers.length < UINT32_MOD)
    (hz : (s0.run sched).closer = CloserPc.saw_zero) :
    (s0.run sched).g.blocked = true ∧
    (∀ o ∈ (s0.run sched).openers, o.pc ≠ OpenerPc.acquired) ∧
    ((s0.run sched).run later).g.blocked = true ∧
    (∀ o ∈ ((s0.run sched).run later).openers, o.pc ≠ OpenerPc.acquired) := by
  have h0 : s0.Inv := ⟨hr, hn, fun h => absurd hc h, fun h => by rw [hc] at h; simp at h⟩
  have h1 := Sys.interleaved_run_inv s0 sched h0
  have hz2 := Sys.run_saw_zero (s0.run sched) later hz
  have h2 := Sys.interleaved_run_inv (s0.run sched) later h1
  refine ⟨h1.2.2.1 (by rw [hz]; simp), h1.2.2.2 hz, h2.2.2.1 (by rw [hz2]; simp), h2.2.2.2 hz2⟩

/-- Witness of C9: two openers and the closer.  The first opener acquires and releases before
the closer blocks; the second increments only after the closer has seen `refcount` `0`, sees
the guard blocked and is rejected. -/
theorem no_acquisition_after_zero_check_witness :
    (Sys.run ⟨ClassDataGuard.init false, [⟨0, OpenerPc.start⟩, ⟨5, OpenerPc.start⟩],
        CloserPc.start⟩
      [Event.opener 0 false, Event.opener 0 false, Event.opener 0 false, Event.closer,
        Event.closer]).closer = CloserPc.saw_zero ∧
    ∀ o ∈ ((Sys.run ⟨ClassDataGuard.init false, [⟨0, OpenerPc.start⟩, ⟨5, OpenerPc.start⟩],
        CloserPc.start⟩
      [Event.opener 0 false, Event.opener 0 false, Event.opener 0 false, Event.closer,
        Event.closer]).run
      [Event.opener 1 false, Event.opener 1 false, Event.opener 1 false,
        Event.opener 1 false]).openers, o.pc ≠ OpenerPc.acquired :=
  ⟨by decide,
   (no_acquisition_after_zero_check
      ⟨ClassDataGuard.init false, [⟨0, OpenerPc.start⟩, ⟨5, OpenerPc.start⟩], CloserPc.start⟩
      [Event.opener 0 false, Event.opener 0 false, Event.opener 0 false, Event.closer,
        Event.closer]
      [Event.opener 1 false, Event.opener 1 false, Event.opener 1 false, Event.opener 1 false]
      rfl (by decide) (by decide) (by decide)).2.2.2⟩

/-! ## The claims on statuses and on the flag of the guard -/

/-- C15: `status_to_string` gives each of the five statuses its own name, so it is injective on
the statuses and never returns the fallback `unknown` for one of them. -/
theorem status_to_string_names :
    status_to_string Status.CLASS_UNKNOWN.value = "CLASS_UNKNOWN" ∧
    status_to_string Status.CLASS_MISSING.value = "CLASS_MISSING" ∧
    status_to_string Status.CLASS_MISSING_DEPS.value = "CLASS_MISSING_DEPS" ∧
    status_to_string Status.CLASS_INITIALIZING.value = "CLASS_INITIALIZING" ∧
    status_to_string Status.CLASS_OPEN.value = "CLASS_OPEN" ∧
    (∀ a b : Status, status_to_string a.value = status_to_string b.value ↔ a = b) ∧
    (∀ a : Status, status_to_string a.value ≠ "unknown") := by
  refine ⟨rfl, rfl, rfl, rfl, rfl, ?_, ?_⟩
  · intro a b
    cases a <;> cases b <;> decide
  · intro a
    cases a <;> decide

/-- C20: `block()` sets `blocked` to true and `unblock()` sets it to false; each leaves
`refcount` and `open_class_waits` as they were and does nothing more when called twice; after
`block()` then `unblock()` the guard is not blocked, after `unblock()` then `block()` it is:
`is_blocked()` reports the flag last written. -/
theorem block_unblock_flag (g : ClassDataGuard) :
    g.block.blocked = true ∧ g.unblock.blocked = false ∧
    g.block.refcount = g.refcount ∧ g.block.open_class_waits = g.open_class_waits ∧
    g.unblock.refcount = g.refcount ∧ g.unblock.open_class_waits = g.open_class_waits ∧
    g.block.block = g.block ∧ g.unblock.unblock = g.unblock ∧
    g.block.is_blocked = true ∧ g.unblock.is_blocked = false ∧
    g.block.unblock.is_blocked = false ∧ g.unblock.block.is_blocked = true ∧
    g.block.unblock = g.unblock ∧ g.unblock.block = g.block :=
  ⟨rfl, rfl, rfl, rfl, rfl, rfl, rfl, rfl, rfl, rfl, rfl, rfl, rfl, rfl⟩

end ClassHandler

namespace ClsVector

/-! ## The claims on element sizes and chunk sizes -/

/-- C18, at the failing inputs: for the formats `i16`, `i32` and `i64`, `get_element_size`
returns `1`, while the element types `int16_t`, `int32_t`, `int64_t` that `read_from` uses for
them are 2, 4 and 8 bytes wide; so `get_vector_size` of four `i32` elements is `4`, not `16`.
The other seven formats get the width of their type. -/
theorem get_element_size_of_signed :
    record_format.get_element_size ⟨8, 0, i16, 4⟩ = 1 ∧
    record_format.sizeof_T ⟨8, 0, i16, 4⟩ = some 2 ∧
    record_format.get_element_size ⟨16, 0, i32, 4⟩ = 1 ∧
    record_format.sizeof_T ⟨16, 0, i32, 4⟩ = some 4 ∧
    record_format.get_element_size ⟨32, 0, i64, 4⟩ = 1 ∧
    record_format.sizeof_T ⟨32, 0, i64, 4⟩ = some 8 ∧
    record_format.get_vector_size ⟨16, 0, i32, 4⟩ = 4 ∧
    (∀ v ∈ [i8, u8, u16, u32, u64, f32, f64],
      some (record_format.get_element_size ⟨16, 0, v, 4⟩) =
        record_format.sizeof_T ⟨16, 0, v, 4⟩) := by
  refine ⟨rfl, rfl, rfl, rfl, rfl, rfl, rfl, ?_⟩
  decide

/-- C19, at the failing inputs: `from_string` accepts `0+0:i32x128`, whose `size` is `0`, and
`READ_BYTES / rfmt.size` divides by `0`; it accepts `2097152+0:u8x1`, whose `size` exceeds
`READ_BYTES`, so `read_length` is `0` and `obj_size / read_length` divides by `0`. -/
theorem chunks_divide_by_zero :
    record_format.from_string "0+0:i32x128".toList = Except.ok ⟨0, 0, i32, 128⟩ ∧
    chunks ⟨0, 0, i32, 128⟩ 1 = none ∧
    record_format.from_string "2097152+0:u8x1".toList = Except.ok ⟨2097152, 0, u8, 1⟩ ∧
    chunks ⟨2097152, 0, u8, 1⟩ 1 = none := by
  refine ⟨?_, ?_, ?_, ?_⟩ <;> decide

/-! ## The claims at their failing inputs -/

/-- C11, at the failing input: `max_to_find` is `2` and the records offered are at distances
`5`, `5`, `3` from the request.  The third offer removes both entries at distance `5`: one result
is left, fewer than `min 3 2`, where the three records are all within the second smallest
distance.  A fourth record at distance `9` is then taken, although the two records at distance
`5`, absent from the results, are closer. -/
theorem test_append_drops_tied_results :
    ((response.test_append_all dist_u8_1 (response.init ⟨2, ⟨⟨1, 0, u8, 1⟩, [0]⟩⟩)
        [⟨⟨1, 0, u8, 1⟩, [5]⟩, ⟨⟨1, 0, u8, 1⟩, [5]⟩, ⟨⟨1, 0, u8, 1⟩, [3]⟩]).results.map
      (fun p => p.1)) = [3] ∧
    ((response.test_append_all dist_u8_1 (response.init ⟨2, ⟨⟨1, 0, u8, 1⟩, [0]⟩⟩)
        [⟨⟨1, 0, u8, 1⟩, [5]⟩, ⟨⟨1, 0, u8, 1⟩, [5]⟩, ⟨⟨1, 0, u8, 1⟩, [3]⟩,
          ⟨⟨1, 0, u8, 1⟩, [9]⟩]).results.map
      (fun p => p.1)) = [3, 9] := by
  constructor <;> decide

/-- C16, at the failing input: one request whose element-type byte is `0`, with its record data
present.  `read_from` finds no case in its `switch` and dereferences the null `r`; no
`std::length_error` is thrown. -/
theorem from_bl_null_deref_on_unknown_format :
    multi_request.layout [⟨1, ⟨⟨1, 0, 0, 1⟩, [byte 7]⟩⟩] =
      [1, 0, 0, 0, 1, 0, 0, 0, 1, 0, 0, 0, 0, 0, 0, 0, 0, 0, 0, 0, 1, 0, 0, 0, 7] ∧
    multi_request.from_bl
      [1, 0, 0, 0, 1, 0, 0, 0, 1, 0, 0, 0, 0, 0, 0, 0, 0, 0, 0, 0, 1, 0, 0, 0, 7] 0 =
        Except.error Fault.null_deref := by
  constructor <;> decide

/-- C17, at the failing inputs.  First: the stored format `4+0:i32x4` is accepted by
`from_string` (it counts one byte for an `i32`), the stored record has 4 data bytes, a request
record with the same format passes `check`, and `_distance` reads 16 bytes from offset `0` in
each.  Second: a request format is not validated at all, so against stored records of format
`1+0:u8x1` a request record with `vector_offset` 1000 and one data byte passes `check`, and
`_distance` reads its byte 1000. -/
theorem distance_reads_outside_record :
    record_format.from_string "4+0:i32x4".toList = Except.ok ⟨4, 0, i32, 4⟩ ∧
    base_record.read_from [1, 2, 3, 4] 0 ⟨4, 0, i32, 4⟩ =
      Except.ok (some ⟨⟨4, 0, i32, 4⟩, [1, 2, 3, 4]⟩) ∧
    request.from_bl (request.layout ⟨1, ⟨⟨4, 0, i32, 4⟩, [0, 0, 0, 0]⟩⟩) 0 =
      Except.ok ⟨1, ⟨⟨4, 0, i32, 4⟩, [0, 0, 0, 0]⟩⟩ ∧
    base_record.check ⟨⟨4, 0, i32, 4⟩, [0, 0, 0, 0]⟩ ⟨⟨4, 0, i32, 4⟩, [1, 2, 3, 4]⟩ =
      Except.ok () ∧
    record_format.sizeof_T ⟨4, 0, i32, 4⟩ = some 4 ∧
    base_record.read_range ⟨⟨4, 0, i32, 4⟩, [1, 2, 3, 4]⟩ 4 = (0, 16) ∧
    ¬ base_record.reads_inside ⟨⟨4, 0, i32, 4⟩, [1, 2, 3, 4]⟩ 4 ∧
    ¬ base_record.reads_inside ⟨⟨4, 0, i32, 4⟩, [0, 0, 0, 0]⟩ 4 ∧
    record_format.from_string "1+0:u8x1".toList = Except.ok ⟨1, 0, u8, 1⟩ ∧
    base_record.read_from [9] 0 ⟨1, 0, u8, 1⟩ = Except.ok (some ⟨⟨1, 0, u8, 1⟩, [9]⟩) ∧
    request.from_bl (request.layout ⟨1, ⟨⟨1, 1000, u8, 1⟩, [0]⟩⟩) 0 =
      Except.ok ⟨1, ⟨⟨1, 1000, u8, 1⟩, [0]⟩⟩ ∧
    base_record.check ⟨⟨1, 1000, u8, 1⟩, [0]⟩ ⟨⟨1, 0, u8, 1⟩, [9]⟩ = Except.ok () ∧
    record_format.sizeof_T ⟨1, 1000, u8, 1⟩ = some 1 ∧
    base_record.read_range ⟨⟨1, 1000, u8, 1⟩, [0]⟩ 1 = (1000, 1001) ∧
    ¬ base_record.reads_inside ⟨⟨1, 1000, u8, 1⟩, [0]⟩ 1 := by
  refine ⟨?_, ?_, ?_, ?_, ?_, ?_, ?_, ?_, ?_, ?_, ?_, ?_, ?_, ?_, ?_⟩ <;> decide

/-! ## Lemmas on bytes and buffers -/

theorem byte_val (n : Nat) : (byte n).val = n % 256 := rfl

theorem le32_length (n : Nat) : (le32 n).length = 4 := rfl

theorem u32_of_le32 (n : Nat) (h : n < UINT32_MOD) : u32_of (le32 n) = n := by
  unfold UINT32_MOD at h
  simp only [u32_of, le32, byte_val]
  omega

theorem copy_mid (bl a m z : List Byte) (off len : Nat) (h : bl = a ++ (m ++ z))
    (ho : off = a.length) (hl : len = m.length) : copy bl off len = Except.ok m := by
  subst h ho hl
  have h1 : a.length + m.length ≤ (a ++ (m ++ z)).length := by
    simp only [List.length_append]
    omega
  simp only [copy, h1, if_true, List.drop_left, List.take_left]

theorem copy_ok_of_le (bl : List Byte) (off len : Nat) (h : off + len ≤ bl.length) :
    copy bl off len = Except.ok ((bl.drop off).take len) := by
  simp only [copy, h, if_true]

theorem layout_reserved_length (f : record_format) (x y z : Byte) :
    (f.layout_reserved x y z).length = 16 := rfl

theorem layout_length (f : record_format) : f.layout.length = 16 := rfl

theorem from_bl_layout_reserved (f : record_format) (x y z : Byte) (bl a post : List Byte)
    (h : bl = a ++ (f.layout_reserved x y z ++ post)) (hwf : f.wf) :
    record_format.from_bl bl a.length = Except.ok f := by
  obtain ⟨h1, h2, h3, h4⟩ := hwf
  have hlen : ¬ bl.length < a.length + 16 := by
    rw [h]
    simp only [List.length_append, layout_reserved_length]
    omega
  have hcopy := copy_mid bl a (f.layout_reserved x y z) post a.length 16 h rfl rfl
  simp only [record_format.from_bl, hlen, if_false, hcopy]
  have e1 : u32_of (List.take 4 (f.layout_reserved x y z)) = f.size :=
    u32_of_le32 f.size h1
  have e2 : u32_of (List.take 4 (List.drop 4 (f.layout_reserved x y z))) = f.vector_offset :=
    u32_of_le32 f.vector_offset h2
  have e3 : u32_of (List.take 4 (List.drop 8 (f.layout_reserved x y z))) % 256 = f.vformat := by
    have : List.take 4 (List.drop 8 (f.layout_reserved x y z)) = [byte f.vformat, x, y, z] := rfl
    rw [this]
    simp only [u32_of, byte_val]
    omega
  have e4 : u32_of (List.take 4 (List.drop 12 (f.layout_reserved x y z))) = f.vector_length :=
    u32_of_le32 f.vector_length h4
  rw [e1, e2, e3, e4]

/-! ## The claim on the encoding of a record format -/

/-- C12: `copy_to` appends to any buffer `b` exactly the 16 bytes of the layout (`uint32` size,
`uint32` vector offset, one byte of element type, three zero bytes, `uint32` vector length,
least significant byte first), and `from_bl` at offset `|b|` of the result returns the format
itself. -/
theorem record_format_round_trip (r : record_format) (b : List Byte) (hwf : r.wf) :
    r.copy_to b = b ++ (le32 r.size ++ le32 r.vector_offset ++ [byte r.vformat] ++
      [byte 0, byte 0, byte 0] ++ le32 r.vector_length) ∧
    (r.copy_to b).length = b.length + 16 ∧
    record_format.from_bl (r.copy_to b) b.length = Except.ok r := by
  have hc : r.copy_to b = b ++ (r.layout_reserved (byte 0) (byte 0) (byte 0) ++ []) := by
    simp [record_format.copy_to, record_format.layout_reserved, List.replicate]
  refine ⟨?_, ?_, ?_⟩
  · rw [hc]
    simp [record_format.layout_reserved]
  · rw [hc]
    simp [layout_reserved_length]
  · exact from_bl_layout_reserved r _ _ _ _ b [] hc hwf

/-- Witness of C12: a format of four `u32` elements, appended to a buffer of two bytes. -/
theorem record_format_round_trip_witness :
    record_format.copy_to ⟨258, 3, u32, 65536⟩ [1, 2] =
      [1, 2, 2, 1, 0, 0, 3, 0, 0, 0, 7, 0, 0, 0, 0, 0, 1, 0] ∧
    record_format.from_bl (record_format.copy_to ⟨258, 3, u32, 65536⟩ [1, 2]) 2 =
      Except.ok ⟨258, 3, u32, 65536⟩ :=
  ⟨by decide, (record_format_round_trip ⟨258, 3, u32, 65536⟩ [1, 2] (by decide)).2.2⟩

/-! ## The claim on the response layout -/

theorem foldl_append_flatten {α : Type} (f : α → List Byte) (xs : List α) (bl : List Byte) :
    xs.foldl (fun bl x => bl ++ f x) bl = bl ++ (xs.map f).flatten := by
  induction xs generalizing bl with
  | nil => simp
  | cons x xs ih => simp [ih, List.append_assoc]

theorem copy_to_eq_layout (r : record_format) (bl : List Byte) :
    r.copy_to bl = bl ++ r.layout := by
  simp [record_format.copy_to, record_format.layout, record_format.layout_reserved,
    List.replicate]

theorem response_copy_to_eq {D : Type} (double_bytes : D → Bytes8) (s : response D)
    (bl : List Byte) : s.copy_to double_bytes bl = bl ++ s.layout double_bytes := by
  have hf : (fun (bl : List Byte) (res : D × base_record) =>
      res.2.copy_to (bl ++ (double_bytes res.1).val)) =
      (fun bl res => bl ++ ((double_bytes res.1).val ++ res.2.data)) := by
    funext bl res
    simp [base_record.copy_to, List.append_assoc]
  simp only [response.copy_to, hf, foldl_append_flatten, base_record.copy_format_to,
    base_record.copy_to, copy_to_eq_layout, response.layout, List.append_assoc]

theorem multi_response_copy_to_eq {D : Type} (double_bytes : D → Bytes8)
    (m : multi_response D) (bl : List Byte) :
    m.copy_to double_bytes bl = bl ++ m.layout double_bytes := by
  have hf : (fun (bl : List Byte) (res : response D) => res.copy_to double_bytes bl) =
      (fun bl res => bl ++ res.layout double_bytes) := by
    funext bl res
    exact response_copy_to_eq double_bytes res bl
  simp only [multi_response.copy_to, hf, foldl_append_flatten, copy_to_eq_layout,
    multi_response.layout, List.append_assoc]

theorem response_layout_length {D : Type} (double_bytes : D → Bytes8) (s : response D) :
    (s.layout double_bytes).length =
      16 + s.rqst.data.length + 4 + (s.results.map (fun res => 8 + res.2.data.length)).sum := by
  have h8 : ∀ d : D, (double_bytes d).val.length = 8 := fun d => (double_bytes d).property
  simp only [response.layout, List.length_append, layout_length, le32_length,
    List.length_flatten, List.map_map]
  have hm : List.map (List.length ∘ fun res : D × base_record =>
      (double_bytes res.1).val ++ res.2.data) s.results =
      List.map (fun res => 8 + res.2.data.length) s.results := by
    apply List.map_congr_left
    intro res _
    simp [h8]
  rw [hm]

/-- C14: `multi_response::copy_to` appends to the buffer, in order, the 16 bytes of the results
record format, the `uint32` number of responses, and for each response the 16 bytes of the
request record format, the data bytes of the request record, the `uint32` number of results and,
for each result, the 8 bytes of its distance and the data bytes of its record.  So it appends
`16 + 4 +` the sum over the responses of `16 +` request data `+ 4 +` the sum over its results of
`8 +` result data; data is `size` bytes for records whose data has the size of their format. -/
theorem multi_response_copy_to_layout {D : Type} (double_bytes : D → Bytes8)
    (m : multi_response D) (bl : List Byte) :
    m.copy_to double_bytes bl =
      bl ++ (m.results_format.layout ++ le32 (m.responses.length % UINT32_MOD) ++
        (m.responses.map (fun s =>
          s.rqst.format.layout ++ s.rqst.data ++ le32 (s.results.length % UINT32_MOD) ++
            (s.results.map (fun res => (double_bytes res.1).val ++ res.2.data)).flatten)).flatten) ∧
    (m.copy_to double_bytes bl).length = bl.length + (16 + 4 +
      (m.responses.map (fun s => 16 + s.rqst.data.length + 4 +
        (s.results.map (fun res => 8 + res.2.data.length)).sum)).sum) ∧
    ((∀ s ∈ m.responses, s.rqst.data.length = s.rqst.size ∧
        ∀ res ∈ s.results, res.2.data.length = res.2.size) →
      (m.copy_to double_bytes bl).length = bl.length + (16 + 4 +
        (m.responses.map (fun s => 16 + s.rqst.size + 4 +
          (s.results.map (fun res => 8 + res.2.size)).sum)).sum)) := by
  have hlen : (m.copy_to double_bytes bl).length = bl.length + (16 + 4 +
      (m.responses.map (fun s => 16 + s.rqst.data.length + 4 +
        (s.results.map (fun res => 8 + res.2.data.length)).sum)).sum) := by
    rw [multi_response_copy_to_eq]
    simp only [multi_response.layout, List.length_append, layout_length, le32_length,
      List.length_flatten, List.map_map]
    have hm : List.map (List.length ∘ response.layout double_bytes) m.responses =
        List.map (fun s => 16 + s.rqst.data.length + 4 +
          (s.results.map (fun res => 8 + res.2.data.length)).sum) m.responses := by
      apply List.map_congr_left
      intro s _
      exact response_layout_length double_bytes s
    rw [hm]
  refine ⟨?_, hlen, ?_⟩
  · rw [multi_response_copy_to_eq]
    rfl
  · intro hwf
    rw [hlen]
    have hm : List.map (fun s : response D => 16 + s.rqst.data.length + 4 +
          (s.results.map (fun res => 8 + res.2.data.length)).sum) m.responses =
        List.map (fun s => 16 + s.rqst.size + 4 +
          (s.results.map (fun res => 8 + res.2.size)).sum) m.responses := by
      apply List.map_congr_left
      intro s hs
      obtain ⟨h1, h2⟩ := hwf s hs
      have hr : List.map (fun res : D × base_record => 8 + res.2.data.length) s.results =
          List.map (fun res => 8 + res.2.size) s.results := by
        apply List.map_congr_left
        intro res hres
        rw [h2 res hres]
      rw [h1, hr]
    rw [hm]

/-- Witness of C14: one response with one result; the record sizes are those of the formats. -/
theorem multi_response_copy_to_layout_witness :
    (multi_response.copy_to (fun _ : Nat => ⟨List.replicate 8 (byte 0), rfl⟩)
      ⟨[⟨⟨⟨1, 0, u8, 1⟩, [0]⟩, [(3, ⟨⟨1, 0, u8, 1⟩, [3]⟩)], 2, 3⟩], ⟨1, 0, u8, 1⟩⟩ []).length
      = 50 :=
  (multi_response_copy_to_layout (fun _ : Nat => ⟨List.replicate 8 (byte 0), rfl⟩)
    ⟨[⟨⟨⟨1, 0, u8, 1⟩, [0]⟩, [(3, ⟨⟨1, 0, u8, 1⟩, [3]⟩)], 2, 3⟩], ⟨1, 0, u8, 1⟩⟩ []).2.2
    (by decide)

/-! ## Lemmas on reading requests -/

theorem read_from_mid (f : record_format) (bl a d post : List Byte)
    (h : bl = a ++ (d ++ post)) (hd : d.length = f.size) (hT : f.sizeof_T ≠ none) :
    base_record.read_from bl a.length f = Except.ok (some ⟨f, d⟩) := by
  have hlen : ¬ bl.length < a.length + f.size := by
    rw [h, ← hd]
    simp only [List.length_append]
    omega
  have hcopy := copy_mid bl a d post a.length f.size h rfl hd.symm
  cases hs : f.sizeof_T with
  | none => exact absurd hs hT
  | some w => simp only [base_record.read_from, hlen, if_false, hs, hcopy]

theorem request_layout_reserved_length (rq : request) (rsv : Byte × Byte × Byte) :
    (rq.layout_reserved rsv).length = 4 + 16 + rq.record.data.length := by
  simp only [request.layout_reserved, List.length_append, le32_length, layout_reserved_length]

theorem request_from_bl_layout (rq : request) (rsv : Byte × Byte × Byte)
    (bl a post : List Byte) (h : bl = a ++ (rq.layout_reserved rsv ++ post)) (hwf : rq.wf)
    (hg : 0 < rq.record.data.length + post.length) :
    request.from_bl bl a.length = Except.ok rq := by
  obtain ⟨hk, hf, hT, hd⟩ := hwf
  have hlen : ¬ bl.length ≤ a.length + 4 + 16 := by
    rw [h]
    simp only [List.length_append, request_layout_reserved_length]
    omega
  have h1 : bl = a ++ (le32 rq.records_to_find ++
      (rq.record.format.layout_reserved rsv.1 rsv.2.1 rsv.2.2 ++ (rq.record.data ++ post))) := by
    rw [h]
    simp only [request.layout_reserved, List.append_assoc]
  have hc := copy_mid bl a (le32 rq.records_to_find) _ a.length 4 h1 rfl rfl
  have h2 : bl = (a ++ le32 rq.records_to_find) ++
      (rq.record.format.layout_reserved rsv.1 rsv.2.1 rsv.2.2 ++ (rq.record.data ++ post)) := by
    rw [h1]
    simp only [List.append_assoc]
  have hl2 : (a ++ le32 rq.records_to_find).length = a.length + 4 := by
    simp only [List.length_append, le32_length]
  have hfmt := from_bl_layout_reserved rq.record.format rsv.1 rsv.2.1 rsv.2.2 bl _ _ h2 hf
  rw [hl2] at hfmt
  have h3 : bl = (a ++ le32 rq.records_to_find ++
      rq.record.format.layout_reserved rsv.1 rsv.2.1 rsv.2.2) ++ (rq.record.data ++ post) := by
    rw [h1]
    simp only [List.append_assoc]
  have hl3 : (a ++ le32 rq.records_to_find ++
      rq.record.format.layout_reserved rsv.1 rsv.2.1 rsv.2.2).length = a.length + 4 + 16 := by
    simp only [List.length_append, le32_length, layout_reserved_length]
  have hrd := read_from_mid rq.record.format bl _ rq.record.data post h3 hd hT
  rw [hl3] at hrd
  simp only [request.from_bl, hlen, if_false, hc, hfmt, hrd, u32_of_le32 _ hk]

theorem layout_requests_cons (it : request × Byte × Byte × Byte)
    (items : List (request × Byte × Byte × Byte)) :
    multi_request.layout_requests (it :: items) =
      it.1.layout_reserved it.2 ++ multi_request.layout_requests items := rfl

theorem read_requests_layout (items : List (request × Byte × Byte × Byte))
    (bl a post : List Byte) (h : bl = a ++ (multi_request.layout_requests items ++ post))
    (hwf : ∀ it ∈ items, it.1.wf)
    (hg : ∀ it, items.getLast? = some it → 0 < it.1.record.data.length + post.length) :
    multi_request.read_requests bl items.length a.length = Except.ok (items.map Prod.fst) := by
  induction items generalizing a with
  | nil => rfl
  | cons it rest ih =>
    have hwf1 := hwf it (List.mem_cons_self _ _)
    have h1 : bl = a ++ (it.1.layout_reserved it.2 ++
        (multi_request.layout_requests rest ++ post)) := by
      rw [h, layout_requests_cons]
      simp only [List.append_assoc]
    have hg1 : 0 < it.1.record.data.length +
        (multi_request.layout_requests rest ++ post).length := by
      cases rest with
      | nil =>
        have := hg it rfl
        simpa [multi_request.layout_requests] using this
      | cons it2 rest2 =>
        rw [layout_requests_cons]
        simp only [List.length_append, request_layout_reserved_length]
        omega
    have hrq := request_from_bl_layout it.1 it.2 bl a _ h1 hwf1 hg1
    have h2 : bl = (a ++ it.1.layout_reserved it.2) ++
        (multi_request.layout_requests rest ++ post) := by
      rw [h1]
      simp only [List.append_assoc]
    have hl2 : (a ++ it.1.layout_reserved it.2).length = a.length + it.1.size := by
      simp only [List.length_append, request_layout_reserved_length, request.size,
        base_record.size, hwf1.2.2.2]
    have hrest := ih (a ++ it.1.layout_reserved it.2) h2
      (fun x hx => hwf x (List.mem_cons_of_mem _ hx))
      (fun x hx => hg x (by
        cases rest with
        | nil => simp at hx
        | cons it2 rest2 => simpa [List.getLast?_cons_cons] using hx))
    rw [hl2] at hrest
    simp only [List.length_cons, multi_request.read_requests, hrq, hrest, List.map_cons]

theorem record_format_from_bl_faults (bl : List Byte) (offset : Nat) (e : Fault)
    (h : record_format.from_bl bl offset = Except.error e) : e = Fault.length_error := by
  unfold record_format.from_bl at h
  by_cases hlen : bl.length < offset + 16
  · simp only [hlen, if_true, Except.error.injEq] at h
    exact h.symm
  · rw [copy_ok_of_le _ _ _ (by omega)] at h
    simp [hlen] at h

theorem read_from_faults (bl : List Byte) (offset : Nat) (f : record_format) (e : Fault)
    (h : base_record.read_from bl offset f = Except.error e) : e = Fault.null_deref := by
  unfold base_record.read_from at h
  by_cases hlen : bl.length < offset + f.size
  · simp [hlen] at h
  · rw [copy_ok_of_le _ _ _ (by omega)] at h
    cases hs : f.sizeof_T with
    | none =>
      simp only [hlen, if_false, hs, Except.error.injEq] at h
      exact h.symm
    | some w => simp [hlen, hs] at h

theorem request_from_bl_faults (bl : List Byte) (offset : Nat) (e : Fault)
    (h : request.from_bl bl offset = Except.error e) :
    e = Fault.length_error ∨ e = Fault.null_deref := by
  unfold request.from_bl at h
  by_cases hlen : bl.length ≤ offset + 4 + 16
  · simp only [hlen, if_true, Except.error.injEq] at h
    exact Or.inl h.symm
  · rw [copy_ok_of_le bl offset 4 (by omega)] at h
    simp only [hlen, if_false] at h
    cases hf : record_format.from_bl bl (offset + 4) with
    | error e1 =>
      simp only [hf, Except.error.injEq] at h
      rw [← h]
      exact Or.inl (record_format_from_bl_faults _ _ _ hf)
    | ok fmt =>
      simp only [hf] at h
      cases hr : base_record.read_from bl (offset + 4 + 16) fmt with
      | error e2 =>
        simp only [hr, Except.error.injEq] at h
        rw [← h]
        exact Or.inr (read_from_faults _ _ _ _ hr)
      | ok o =>
        cases o with
        | none =>
          simp only [hr, Except.error.injEq] at h
          exact Or.inl h.symm
        | some r => simp [hr] at h

theorem read_requests_faults (bl : List Byte) (n offset : Nat) (e : Fault)
    (h : multi_request.read_requests bl n offset = Except.error e) :
    e = Fault.length_error ∨ e = Fault.null_deref := by
  induction n generalizing offset e with
  | zero => simp [multi_request.read_requests] at h
  | succ n ih =>
    simp only [multi_request.read_requests] at h
    cases hrq : request.from_bl bl offset with
    | error e1 =>
      simp only [hrq, Except.error.injEq] at h
      rw [← h]
      exact request_from_bl_faults bl offset e1 hrq
    | ok rq =>
      simp only [hrq] at h
      cases hrest : multi_request.read_requests bl n (offset + rq.size) with
      | error e2 =>
        simp only [hrest, Except.error.injEq] at h
        rw [← h]
        exact ih _ _ hrest
      | ok rqs => simp [hrest] at h

theorem multi_request_from_bl_faults (bl : List Byte) (offset : Nat) (e : Fault)
    (h : multi_request.from_bl bl offset = Except.error e) :
    e = Fault.length_error ∨ e = Fault.null_deref := by
  unfold multi_request.from_bl at h
  split at h
  · simp only [Except.error.injEq] at h
    exact Or.inl h.symm
  · rw [copy_ok_of_le _ _ _ (by omega)] at h
    simp only at h
    cases hr : multi_request.read_requests bl (u32_of ((bl.drop offset).take 4)) (offset + 4) with
    | error e1 =>
      simp only [hr, Except.error.injEq] at h
      rw [← h]
      exact read_requests_faults _ _ _ _ hr
    | ok rqs => simp [hr] at h

/-! ## The claim on the request layout -/

/-- C13, as stated, fails on two buffers in the documented layout: the four bytes of a count
`0`, and a count `1` followed by one request whose record has size `0` (24 bytes in all).
`from_bl` throws `std::length_error` on both; with any byte appended to the second it returns
the request. -/
theorem from_bl_rejects_short_buffers :
    multi_request.layout [] = [0, 0, 0, 0] ∧
    multi_request.from_bl [0, 0, 0, 0] 0 = Except.error Fault.length_error ∧
    (multi_request.layout [⟨1, ⟨⟨0, 0, u8, 0⟩, []⟩⟩]).length = 24 ∧
    multi_request.from_bl (multi_request.layout [⟨1, ⟨⟨0, 0, u8, 0⟩, []⟩⟩]) 0 =
      Except.error Fault.length_error ∧
    multi_request.from_bl (multi_request.layout [⟨1, ⟨⟨0, 0, u8, 0⟩, []⟩⟩] ++ [byte 0]) 0 =
      Except.ok ⟨[⟨1, ⟨⟨0, 0, u8, 0⟩, []⟩⟩]⟩ := by
  refine ⟨?_, ?_, ?_, ?_, ?_⟩ <;> decide

/-- C13 (amended): let the buffer hold, from `offset`, a `uint32` count `n` and `n` requests,
each a `uint32` number of records to find, a 16-byte record format (any reserved bytes) whose
element type is one of the ten formats, and `size` bytes of record data.  If the buffer is more
than 24 bytes longer than `offset` and at least one byte follows the 20-byte header of the last
request (its record has `size > 0`, or the buffer goes on), then `from_bl` returns exactly those
`n` requests in order; each request takes `4 + 16 + size` bytes. -/
theorem from_bl_parses_layout (items : List (request × Byte × Byte × Byte))
    (pre post : List Byte)
    (hn : items.length < UINT32_MOD)
    (hwf : ∀ it ∈ items, it.1.wf)
    (h24 : pre.length + 24 < (pre ++ (multi_request.layout_reserved items ++ post)).length)
    (hlast : ∀ it, items.getLast? = some it → 0 < it.1.record.format.size + post.length) :
    multi_request.from_bl (pre ++ (multi_request.layout_reserved items ++ post)) pre.length =
      Except.ok ⟨items.map Prod.fst⟩ ∧
    ∀ it ∈ items, (it.1.layout_reserved it.2).length = it.1.size := by
  constructor
  · have hlen : ¬ (pre ++ (multi_request.layout_reserved items ++ post)).length ≤
        pre.length + 4 + 4 + 16 := by omega
    have h1 : pre ++ (multi_request.layout_reserved items ++ post) =
        pre ++ (le32 items.length ++ (multi_request.layout_requests items ++ post)) := by
      simp only [multi_request.layout_reserved, List.append_assoc]
    have hc := copy_mid _ pre (le32 items.length) _ pre.length 4 h1 rfl rfl
    have h2 : pre ++ (multi_request.layout_reserved items ++ post) =
        (pre ++ le32 items.length) ++ (multi_request.layout_requests items ++ post) := by
      rw [h1]
      simp only [List.append_assoc]
    have hl2 : (pre ++ le32 items.length).length = pre.length + 4 := by
      simp only [List.length_append, le32_length]
    have hr := read_requests_layout items _ (pre ++ le32 items.length) post h2 hwf
      (fun it hit => by
        have := hlast it hit
        have hd := (hwf it (List.mem_of_getLast?_eq_some hit)).2.2.2
        omega)
    rw [hl2] at hr
    simp only [multi_request.from_bl, hlen, if_false, hc, u32_of_le32 _ hn, hr]
  · intro it hit
    rw [request_layout_reserved_length, request.size, base_record.size, (hwf it hit).2.2.2]

/-- Witness of C13 (amended): two requests after a prefix of three bytes, the first with
non-zero reserved bytes. -/
theorem from_bl_parses_layout_witness :
    multi_request.from_bl
      ([9, 9, 9] ++ (multi_request.layout_reserved
        [(⟨2, ⟨⟨2, 0, u16, 1⟩, [1, 2]⟩⟩, 7, 8, 9), (⟨1, ⟨⟨1, 0, u8, 1⟩, [5]⟩⟩, 0, 0, 0)] ++ [])) 3 =
      Except.ok ⟨[⟨2, ⟨⟨2, 0, u16, 1⟩, [1, 2]⟩⟩, ⟨1, ⟨⟨1, 0, u8, 1⟩, [5]⟩⟩]⟩ :=
  (from_bl_parses_layout
    [(⟨2, ⟨⟨2, 0, u16, 1⟩, [1, 2]⟩⟩, 7, 8, 9), (⟨1, ⟨⟨1, 0, u8, 1⟩, [5]⟩⟩, 0, 0, 0)]
    [9, 9, 9] [] (by decide) (by decide) (by decide)
    (fun it hit => by
      simp only [List.getLast?, List.getLast, Option.some.injEq] at hit
      subst hit
      decide)).1

/-! ## Where the chunk computation is defined -/

theorem chunks_defined (rfmt : record_format) (obj_size : Nat) (h0 : 0 < rfmt.size)
    (h1 : rfmt.size ≤ READ_BYTES) :
    ∃ c, chunks rfmt obj_size = some (READ_BYTES / rfmt.size * rfmt.size, c) ∧
      0 < READ_BYTES / rfmt.size * rfmt.size ∧
      READ_BYTES / rfmt.size * rfmt.size ≤ READ_BYTES ∧
      rfmt.size ∣ READ_BYTES / rfmt.size * rfmt.size := by
  have hq : 0 < READ_BYTES / rfmt.size := Nat.div_pos h1 h0
  have hle : READ_BYTES / rfmt.size * rfmt.size ≤ READ_BYTES := Nat.div_mul_le_self _ _
  have hpos : 0 < READ_BYTES / rfmt.size * rfmt.size := Nat.mul_pos hq h0
  have hRB : READ_BYTES < UINT32_MOD := by decide
  have hqle : READ_BYTES / rfmt.size ≤ READ_BYTES := Nat.div_le_self _ _
  have e1 : READ_BYTES / rfmt.size % UINT32_MOD = READ_BYTES / rfmt.size :=
    Nat.mod_eq_of_lt (lt_of_le_of_lt hqle hRB)
  have e2 : READ_BYTES / rfmt.size * rfmt.size % UINT32_MOD =
      READ_BYTES / rfmt.size * rfmt.size :=
    Nat.mod_eq_of_lt (lt_of_le_of_lt hle hRB)
  have hne : rfmt.size ≠ 0 := by omega
  have hne2 : READ_BYTES / rfmt.size * rfmt.size ≠ 0 := by omega
  refine ⟨(obj_size / (READ_BYTES / rfmt.size * rfmt.size) + 1) % 18446744073709551616,
    ?_, hpos, hle, Dvd.intro_left _ rfl⟩
  simp only [chunks, udiv, hne, if_false, e1, e2, hne2]

end ClsVector
